import Mathlib

/-!
# The state engine of the snake game (`src/snake/snake.go`)

A shallow embedding of `snake.go` and the properties of its transition rules.

Modelling conventions.

* Go `int` is modelled by `Int`; board coordinates are far from the 64-bit range and the
  wrap-around of `int` is not modelled.  A property that states the result of an addition or
  a subtraction for arbitrary states carries the hypothesis that the operation stays between
  `MinInt64` and `MaxInt64`, where `Int` and `int` agree.  The narrowing conversion
  `int8(...)` used by the two classifiers is modelled exactly (`int8`).
* A Go function returning `(int, error)` is modelled by a pair `Int × Option GoError`.
* A method with a pointer receiver that mutates the state is modelled by a function returning the
  new state.  A call that does not return (`log.Fatal`, a run-time panic) is modelled by
  `Except.error`.
* `rand.Intn` is an external source of randomness: every call takes the raw draw as an argument.
-/

set_option autoImplicit false

namespace Snake

/-! ## Data model (snake.go:9-67) -/

/-- Grid cell, `type Point struct { X int; Y int }`. -/
structure Point where
  X : Int
  Y : Int
deriving DecidableEq

/-- Part of a snake body: a coordinate and a tag for head/tail/body. -/
structure SnakePart where
  Cord : Point
  PartType : Int
deriving DecidableEq

def UP : Int := 0
def LEFT : Int := 1
def DOWN : Int := 2
def RIGHT : Int := 3

def BODY_PART_HEAD_UP : Int := 0
def BODY_PART_HEAD_LEFT : Int := 1
def BODY_PART_HEAD_DOWN : Int := 2
def BODY_PART_HEAD_RIGHT : Int := 3
def BODY_PART_TAIL_UP : Int := 4
def BODY_PART_TAIL_DOWN : Int := 5
def BODY_PART_TAIL_LEFT : Int := 6
def BODY_PART_TAIL_RIGHT : Int := 7
def BODY_PART_I : Int := 8
def BODY_PART_H : Int := 9
def BODY_PART_BODY_L : Int := 10
def BODY_PART_BODY_L1 : Int := 11
def BODY_PART_BODY_L2 : Int := 12
def BODY_PART_BODY_L3 : Int := 13

/-- State of a snake game.  `SnakeBody` lists the tail first and the head last. -/
structure SnakeState where
  SnakeBody : List SnakePart
  Direction : Int
  Apple : Point
  Height : Int
  Width : Int
  GameOver : Bool
  Score : Int
deriving DecidableEq

/-- Values built by `fmt.Errorf` in the two classifiers. -/
inductive GoError where
  | unknown_body (p1 p2 p3 : Point)
  | unknown_tail (p_tail p_pre : Point)
deriving DecidableEq

/-- Ways in which a call does not return. -/
inductive Abort where
  | fatal (err : GoError)
  | index_out_of_range
  | intn_invalid_argument
deriving DecidableEq

deriving instance DecidableEq for Except

/-- Go conversion `int8(z)`: the low eight bits of `z`, read as a signed number. -/
def int8 (z : Int) : Int := (z + 128) % 256 - 128

/-- Draw of `rand.Intn(n)`: it panics when `n <= 0`, otherwise the result lies in `[0, n)`;
`r` is the raw draw. -/
def rand_Intn (r : Nat) (n : Int) : Except Abort Int :=
  if n ≤ 0 then .error .intn_invalid_argument else .ok ((r : Int) % n)

/-! ## Lookup tables (snake.go:221-250) -/

def _BODY_TYPE_DELTAS : List ((Int × Int × Int × Int) × Int) :=
  [ ((0, 0, 1, 1), BODY_PART_I),
    ((1, 1, 0, 0), BODY_PART_H),
    ((0, 1, 1, 0), BODY_PART_BODY_L),
    ((0, 1, -1, 0), BODY_PART_BODY_L1),
    ((0, -1, -1, 0), BODY_PART_BODY_L2),
    ((0, -1, 1, 0), BODY_PART_BODY_L3) ]

def _TAIL_TYPE_DELTAS : List ((Int × Int) × Int) :=
  [ ((0, 1), BODY_PART_TAIL_DOWN),
    ((0, -1), BODY_PART_TAIL_UP),
    ((-1, 0), BODY_PART_TAIL_LEFT),
    ((1, 0), BODY_PART_TAIL_RIGHT) ]

def _HEAD_TYPE_FROM_DIR : List (Int × Int) :=
  [ (UP, BODY_PART_HEAD_UP),
    (DOWN, BODY_PART_HEAD_DOWN),
    (LEFT, BODY_PART_HEAD_LEFT),
    (RIGHT, BODY_PART_HEAD_RIGHT) ]

/-! ## Classifiers (snake.go:252-283) -/

/-- Body type of `p2`, between its neighbours `p1` and `p3`. -/
def get_part_type (p1 p2 p3 : Point) : Int × Option GoError :=
  let delta1 : Int × Int × Int × Int :=
    (int8 (p2.X - p1.X), int8 (p3.X - p2.X), int8 (p2.Y - p1.Y), int8 (p3.Y - p2.Y))
  let delta2 : Int × Int × Int × Int :=
    (int8 (p2.X - p3.X), int8 (p1.X - p2.X), int8 (p2.Y - p3.Y), int8 (p1.Y - p2.Y))
  match _BODY_TYPE_DELTAS.lookup delta1, _BODY_TYPE_DELTAS.lookup delta2 with
  | some type1, _ => (type1, none)
  | none, some type2 => (type2, none)
  | none, none => (0, some (.unknown_body p1 p2 p3))

def get_tail_type (p_tail p_pre : Point) : Int × Option GoError :=
  let delta : Int × Int := (int8 (p_pre.X - p_tail.X), int8 (p_pre.Y - p_tail.Y))
  match _TAIL_TYPE_DELTAS.lookup delta with
  | some type1 => (type1, none)
  | none => (0, some (.unknown_tail p_tail p_pre))

/-! ## Operations on the state (snake.go:69-219) -/

def CreateSnake (height width : Int) : SnakeState :=
  { SnakeBody := [⟨⟨Int.tdiv width 2, Int.tdiv height 2⟩, BODY_PART_HEAD_DOWN⟩]
    Direction := DOWN
    Apple := ⟨-1, -1⟩
    Height := height
    Width := width
    GameOver := false
    Score := 0 }

def HasApple (ss : SnakeState) : Bool :=
  decide (ss.Apple.X > 0) && decide (ss.Apple.Y > 0)

/-- Update the snake's direction; the snake cannot reverse. -/
def UpdateDirection (ss : SnakeState) (dir : Int) : SnakeState :=
  if ss.Direction = UP ∨ ss.Direction = DOWN then
    if dir = LEFT ∨ dir = RIGHT then { ss with Direction := dir } else ss
  else
    if dir = UP ∨ dir = DOWN then { ss with Direction := dir } else ss

/-- Create an apple if there is none; `rx`, `ry` are the raw draws of the two `rand.Intn`. -/
def maybe_create_apple (ss : SnakeState) (rx ry : Nat) : Except Abort SnakeState :=
  if ss.Apple.X > 0 ∧ ss.Apple.Y > 0 then .ok ss
  else do
    let x ← rand_Intn rx (ss.Width - 2)
    let y ← rand_Intn ry (ss.Height - 2)
    .ok { ss with Apple := ⟨x + 1, y + 1⟩ }

/-- Advance the head by one cell and return the new head; the state is only read. -/
def advance_snake_head (ss : SnakeState) : Except Abort SnakePart :=
  let head_idx := ss.SnakeBody.length - 1
  match ss.SnakeBody[head_idx]? with
  | none => .error .index_out_of_range
  | some old_head =>
    let new_head : SnakePart :=
      { old_head with PartType := (_HEAD_TYPE_FROM_DIR.lookup ss.Direction).getD 0 }
    if ss.Direction = UP then
      .ok { new_head with Cord := { new_head.Cord with Y := new_head.Cord.Y - 1 } }
    else if ss.Direction = DOWN then
      .ok { new_head with Cord := { new_head.Cord with Y := new_head.Cord.Y + 1 } }
    else if ss.Direction = LEFT then
      .ok { new_head with Cord := { new_head.Cord with X := new_head.Cord.X - 1 } }
    else if ss.Direction = RIGHT then
      .ok { new_head with Cord := { new_head.Cord with X := new_head.Cord.X + 1 } }
    else .ok new_head

/-- Loop of `snake_touched` over the segments from the current index to the end. -/
def touches_body (new_head : Point) : List SnakePart → Bool
  | [] => false
  | part :: rest =>
    if new_head.X = part.Cord.X ∧ new_head.Y = part.Cord.Y then true
    else touches_body new_head rest

/-- True if the new head touches the border or the snake itself (the tail is not checked). -/
def snake_touched (ss : SnakeState) (new_head : Point) : Bool :=
  if new_head.X ≤ 0 ∨ new_head.X ≥ ss.Width - 1 then true
  else if new_head.Y ≤ 0 ∨ new_head.Y ≥ ss.Height - 1 then true
  else touches_body new_head (ss.SnakeBody.drop 1)

/-- Block snake.go:195-203: with more than one segment, re-tag the tail `body[0]`. -/
def retag_tail (body : List SnakePart) : Except Abort (List SnakePart) :=
  if body.length > 1 then
    match body[0]?, body[1]? with
    | some p0, some p1 =>
      match get_tail_type p0.Cord p1.Cord with
      | (tail_type, none) => .ok (body.set 0 { p0 with PartType := tail_type })
      | (_, some err) => .error (.fatal err)
    | _, _ => .error .index_out_of_range
  else .ok body

/-- Block snake.go:205-218: with more than two segments, re-tag the old head
`body[len-2]`. -/
def retag_old_head (body : List SnakePart) : Except Abort (List SnakePart) :=
  if body.length > 2 then
    match body[body.length - 1]?, body[body.length - 2]?, body[body.length - 3]? with
    | some q1, some q2, some q3 =>
      match get_part_type q1.Cord q2.Cord q3.Cord with
      | (t, none) => .ok (body.set (body.length - 2) { q2 with PartType := t })
      | (_, some err) => .error (.fatal err)
    | _, _, _ => .error .index_out_of_range
  else .ok body

def maybe_consume_apple_and_grow_snake (ss : SnakeState) (new_head : SnakePart) :
    Except Abort SnakeState :=
  let grown : SnakeState := { ss with SnakeBody := ss.SnakeBody ++ [new_head] }
  let moved : SnakeState :=
    if new_head.Cord = grown.Apple then
      { grown with Apple := ⟨-1, -1⟩, Score := grown.Score + 1 }
    else
      { grown with SnakeBody := grown.SnakeBody.drop 1 }
  do
    let body1 ← retag_tail moved.SnakeBody
    let body2 ← retag_old_head body1
    .ok { moved with SnakeBody := body2 }

/-- Advance the snake one tick; `rx`, `ry` are the raw draws used if an apple is created. -/
def Tick (ss : SnakeState) (rx ry : Nat) : Except Abort SnakeState :=
  if ss.GameOver then .ok ss
  else do
    let new_head ← advance_snake_head ss
    let touched := snake_touched ss new_head.Cord
    if touched then .ok { ss with GameOver := true }
    else do
      let ss1 ← maybe_consume_apple_and_grow_snake ss new_head
      maybe_create_apple ss1 rx ry

/-- Repeated `Tick`, one pair of raw draws per call. -/
def Ticks : List (Nat × Nat) → SnakeState → Except Abort SnakeState
  | [], ss => .ok ss
  | (rx, ry) :: rest, ss => do
    let ss1 ← Tick ss rx ry
    Ticks rest ss1

/-- One call of the driver on the state. -/
inductive Call where
  | update (dir : Int)
  | tick (rx ry : Nat)
deriving DecidableEq

/-- Run a sequence of `UpdateDirection` and `Tick` calls. -/
def run : List Call → SnakeState → Except Abort SnakeState
  | [], ss => .ok ss
  | .update dir :: rest, ss => run rest (UpdateDirection ss dir)
  | .tick rx ry :: rest, ss => do
    let ss1 ← Tick ss rx ry
    run rest ss1

/-! ## Vocabulary of the properties -/

/-- Greatest value of a Go `int` (64 bits). -/
def MaxInt64 : Int := 9223372036854775807

/-- Least value of a Go `int` (64 bits). -/
def MinInt64 : Int := -9223372036854775808

/-- Cells of the segments of a body, tail first. -/
def cellsOf (body : List SnakePart) : List Point := body.map (fun part => part.Cord)

/-- The heading `b` is the reverse of the heading `a`. -/
def IsOpposite (a b : Int) : Prop :=
  (a = UP ∧ b = DOWN) ∨ (a = DOWN ∧ b = UP) ∨ (a = LEFT ∧ b = RIGHT) ∨ (a = RIGHT ∧ b = LEFT)

/-- The cell `q` is one unit grid step away from `p`. -/
def IsUnitStep (p q : Point) : Prop :=
  (q.X - p.X = 0 ∧ q.Y - p.Y = 1) ∨ (q.X - p.X = 0 ∧ q.Y - p.Y = -1) ∨
  (q.X - p.X = 1 ∧ q.Y - p.Y = 0) ∨ (q.X - p.X = -1 ∧ q.Y - p.Y = 0)

/-- The cell `n` lies directly above `b` (rows grow downward). -/
def Above (n b : Point) : Prop := n.X = b.X ∧ n.Y = b.Y - 1

/-- The cell `n` lies directly below `b`. -/
def Below (n b : Point) : Prop := n.X = b.X ∧ n.Y = b.Y + 1

/-- The cell `n` lies directly to the left of `b`. -/
def LeftOf (n b : Point) : Prop := n.X = b.X - 1 ∧ n.Y = b.Y

/-- The cell `n` lies directly to the right of `b`. -/
def RightOf (n b : Point) : Prop := n.X = b.X + 1 ∧ n.Y = b.Y

/-- State reached from `CreateSnake 10 10` by two ticks (the second one eats the apple drawn at
`(5,7)`, and the next apple is drawn at `(5,6)`, under the tail) followed by
`UpdateDirection(LEFT)` and `UpdateDirection(UP)`. -/
def reversedOnApple : SnakeState :=
  { SnakeBody := [⟨⟨5, 6⟩, BODY_PART_TAIL_DOWN⟩, ⟨⟨5, 7⟩, BODY_PART_HEAD_DOWN⟩]
    Direction := UP
    Apple := ⟨5, 6⟩
    Height := 10
    Width := 10
    GameOver := false
    Score := 1 }

/-- State reached from `CreateSnake 10 10` by five ticks and three turns: the snake eats the
apples drawn at `(5,7)`, `(4,7)` and `(4,6)`, the next apple is drawn at `(5,6)`, under the
tail, and the head turns onto it. -/
def biteTail : SnakeState :=
  { SnakeBody := [⟨⟨5, 6⟩, BODY_PART_TAIL_DOWN⟩, ⟨⟨5, 7⟩, BODY_PART_BODY_L3⟩,
      ⟨⟨4, 7⟩, BODY_PART_BODY_L⟩, ⟨⟨4, 6⟩, BODY_PART_BODY_L1⟩, ⟨⟨5, 6⟩, BODY_PART_HEAD_RIGHT⟩]
    Direction := RIGHT
    Apple := ⟨1, 1⟩
    Height := 10
    Width := 10
    GameOver := false
    Score := 4 }

/-- State reached from `CreateSnake 10 10` by one tick whose draws place the first apple at
`(5,6)`, the cell the head has just moved to. -/
def appleUnderHead : SnakeState :=
  { SnakeBody := [⟨⟨5, 6⟩, BODY_PART_HEAD_DOWN⟩]
    Direction := DOWN
    Apple := ⟨5, 6⟩
    Height := 10
    Width := 10
    GameOver := false
    Score := 0 }

/-- State reached from `CreateSnake 3 3` by one tick: the snake ran into the bottom wall. -/
def hitWall : SnakeState :=
  { SnakeBody := [⟨⟨1, 1⟩, BODY_PART_HEAD_DOWN⟩]
    Direction := DOWN
    Apple := ⟨-1, -1⟩
    Height := 3
    Width := 3
    GameOver := true
    Score := 0 }

/-- The integer `dir` is one of the four headings. -/
def IsHeading (dir : Int) : Prop := dir = UP ∨ dir = DOWN ∨ dir = LEFT ∨ dir = RIGHT

/-- The cell `b` is the cell `a` displaced by one unit along the heading `dir`
(the `switch` of `advance_snake_head`). -/
def MovedAlong (dir : Int) (a b : Point) : Prop :=
  (dir = UP ∧ b.X = a.X ∧ b.Y = a.Y - 1) ∨ (dir = DOWN ∧ b.X = a.X ∧ b.Y = a.Y + 1) ∨
  (dir = LEFT ∧ b.X = a.X - 1 ∧ b.Y = a.Y) ∨ (dir = RIGHT ∧ b.X = a.X + 1 ∧ b.Y = a.Y)

/-- The cell `p` lies inside the wall ring of a board of the given size. -/
def InInterior (height width : Int) (p : Point) : Prop :=
  1 ≤ p.X ∧ p.X ≤ width - 2 ∧ 1 ≤ p.Y ∧ p.Y ≤ height - 2

/-- States reachable from `CreateSnake h w` by a finite sequence of `UpdateDirection` calls
(with one of the four headings as intent) and of `Tick` calls that return, whatever the draws. -/
inductive Reachable (h w : Int) : SnakeState → Prop
  | init : Reachable h w (CreateSnake h w)
  | update (ss : SnakeState) (dir : Int) :
      Reachable h w ss → IsHeading dir → Reachable h w (UpdateDirection ss dir)
  | tick (ss ss' : SnakeState) (rx ry : Nat) :
      Reachable h w ss → Tick ss rx ry = .ok ss' → Reachable h w ss'

/-- States reachable as in `Reachable`, by sequences in which no two `UpdateDirection` calls
follow each other without a `Tick` in between (the driver of game.go:66-72 calls
`UpdateDirection` once before each `Tick`).  The flag tells whether the last call was not an
`UpdateDirection`. -/
inductive DriverReachable (h w : Int) : Bool → SnakeState → Prop
  | init : DriverReachable h w true (CreateSnake h w)
  | update (ss : SnakeState) (dir : Int) :
      DriverReachable h w true ss → IsHeading dir →
      DriverReachable h w false (UpdateDirection ss dir)
  | tick (fresh : Bool) (ss ss' : SnakeState) (rx ry : Nat) :
      DriverReachable h w fresh ss → Tick ss rx ry = .ok ss' → DriverReachable h w true ss'

/-- The tick from `ss` to `ss'` created no apple on a body cell: an apple that lies on the body
of `ss'` is the apple of `ss`, and nothing was eaten. -/
def NoSpawnOnBody (ss ss' : SnakeState) : Prop :=
  ss'.Apple ∈ cellsOf ss'.SnakeBody → ss'.Apple = ss.Apple ∧ ss'.Score = ss.Score

/-- States reachable as in `Reachable`, by ticks none of which creates an apple on a body
cell. -/
inductive FreeSpawnReachable (h w : Int) : SnakeState → Prop
  | init : FreeSpawnReachable h w (CreateSnake h w)
  | update (ss : SnakeState) (dir : Int) :
      FreeSpawnReachable h w ss → IsHeading dir → FreeSpawnReachable h w (UpdateDirection ss dir)
  | tick (ss ss' : SnakeState) (rx ry : Nat) :
      FreeSpawnReachable h w ss → Tick ss rx ry = .ok ss' → NoSpawnOnBody ss ss' →
      FreeSpawnReachable h w ss'

/-- The tail `body[0]` carries the tag that `get_tail_type` gives for the cells of `body[0]`
and `body[1]`. -/
def TailTagged (body : List SnakePart) : Prop :=
  ∀ p0 p1, body[0]? = some p0 → body[1]? = some p1 →
    get_tail_type p0.Cord p1.Cord = (p0.PartType, none)

/-- Every segment `b` with a neighbour `a` toward the tail and a neighbour `c` toward the head
carries the tag that `get_part_type` gives for the cells of `c`, `b`, `a`. -/
def InteriorTagged (body : List SnakePart) : Prop :=
  ∀ i a b c, body[i]? = some a → body[i + 1]? = some b → body[i + 2]? = some c →
    get_part_type c.Cord b.Cord a.Cord = (b.PartType, none)

/-- The head carries the head tag of the heading along which it lies from the segment behind
it. -/
def HeadTagged (body : List SnakePart) : Prop :=
  ∀ neck head, 2 ≤ body.length → body[body.length - 2]? = some neck →
    body[body.length - 1]? = some head →
    ∃ d, IsHeading d ∧ MovedAlong d neck.Cord head.Cord ∧
      head.PartType = (_HEAD_TYPE_FROM_DIR.lookup d).getD 0

instance (a b : Int) : Decidable (IsOpposite a b) := by
  unfold IsOpposite; infer_instance

instance (p q : Point) : Decidable (IsUnitStep p q) := by
  unfold IsUnitStep; infer_instance

instance (n b : Point) : Decidable (Above n b) := by
  unfold Above; infer_instance

instance (n b : Point) : Decidable (Below n b) := by
  unfold Below; infer_instance

instance (n b : Point) : Decidable (LeftOf n b) := by
  unfold LeftOf; infer_instance

instance (n b : Point) : Decidable (RightOf n b) := by
  unfold RightOf; infer_instance

instance (dir : Int) : Decidable (IsHeading dir) := by
  unfold IsHeading; infer_instance

instance (dir : Int) (a b : Point) : Decidable (MovedAlong dir a b) := by
  unfold MovedAlong; infer_instance

instance (height width : Int) (p : Point) : Decidable (InInterior height width p) := by
  unfold InInterior; infer_instance

instance (ss ss' : SnakeState) : Decidable (NoSpawnOnBody ss ss') := by
  unfold NoSpawnOnBody; infer_instance

/-- Every `UpdateDirection` call of the sequence has one of the four headings as intent. -/
def validCalls : List Call → Bool
  | [] => true
  | .update dir :: rest => decide (IsHeading dir) && validCalls rest
  | .tick _ _ :: rest => validCalls rest

/-! ## Auxiliary lemmas -/

theorem lookup_cons_ite {α β : Type} [BEq α] [LawfulBEq α] [DecidableEq α]
    (a k : α) (b : β) (es : List (α × β)) :
    List.lookup a ((k, b) :: es) = if a = k then some b else List.lookup a es := by
  rw [List.lookup_cons]
  by_cases h : a = k
  · simp [h]
  · have : (a == k) = false := by simpa using h
    simp [this, h]

theorem body_lookup (a b c d : Int) :
    _BODY_TYPE_DELTAS.lookup (a, b, c, d) =
      if a = 0 ∧ b = 0 ∧ c = 1 ∧ d = 1 then some BODY_PART_I
      else if a = 1 ∧ b = 1 ∧ c = 0 ∧ d = 0 then some BODY_PART_H
      else if a = 0 ∧ b = 1 ∧ c = 1 ∧ d = 0 then some BODY_PART_BODY_L
      else if a = 0 ∧ b = 1 ∧ c = -1 ∧ d = 0 then some BODY_PART_BODY_L1
      else if a = 0 ∧ b = -1 ∧ c = -1 ∧ d = 0 then some BODY_PART_BODY_L2
      else if a = 0 ∧ b = -1 ∧ c = 1 ∧ d = 0 then some BODY_PART_BODY_L3
      else none := by
  simp only [_BODY_TYPE_DELTAS, lookup_cons_ite, List.lookup_nil, Prod.mk.injEq]

theorem tail_lookup (a b : Int) :
    _TAIL_TYPE_DELTAS.lookup (a, b) =
      if a = 0 ∧ b = 1 then some BODY_PART_TAIL_DOWN
      else if a = 0 ∧ b = -1 then some BODY_PART_TAIL_UP
      else if a = -1 ∧ b = 0 then some BODY_PART_TAIL_LEFT
      else if a = 1 ∧ b = 0 then some BODY_PART_TAIL_RIGHT
      else none := by
  simp only [_TAIL_TYPE_DELTAS, lookup_cons_ite, List.lookup_nil, Prod.mk.injEq]

theorem body_lookup_some (a b c d t : Int) (h : _BODY_TYPE_DELTAS.lookup (a, b, c, d) = some t) :
    a = 0 ∧ (b = 0 ∧ (c = 1 ∧ d = 1) ∨ (b = 1 ∨ b = -1) ∧ (c = 1 ∨ c = -1) ∧ d = 0)
      ∨ a = 1 ∧ b = 1 ∧ c = 0 ∧ d = 0 := by
  rw [body_lookup] at h
  split_ifs at h <;> omega

/-- The forward and the reversed probe of the table never hit together. -/
theorem body_lookup_exclusive (x1 x2 y1 y2 t u : Int)
    (h1 : _BODY_TYPE_DELTAS.lookup (int8 x1, int8 x2, int8 y1, int8 y2) = some t)
    (h2 : _BODY_TYPE_DELTAS.lookup (int8 (-x2), int8 (-x1), int8 (-y2), int8 (-y1)) = some u) :
    False := by
  have k1 := body_lookup_some _ _ _ _ _ h1
  have k2 := body_lookup_some _ _ _ _ _ h2
  simp only [int8] at k1 k2
  omega



theorem isUnitStep_symm {p q : Point} (h : IsUnitStep p q) : IsUnitStep q p := by
  unfold IsUnitStep at *
  omega

theorem get_tail_type_of_step (T N : Point) (h : IsUnitStep T N) :
    (get_tail_type T N).2 = none := by
  unfold get_tail_type
  simp only [tail_lookup, int8]
  rcases h with ⟨h1, h2⟩ | ⟨h1, h2⟩ | ⟨h1, h2⟩ | ⟨h1, h2⟩ <;> rw [h1, h2] <;> norm_num

theorem get_tail_type_value (T N : Point) :
    (N.X - T.X = 0 ∧ N.Y - T.Y = 1 → get_tail_type T N = (BODY_PART_TAIL_DOWN, none)) ∧
    (N.X - T.X = 0 ∧ N.Y - T.Y = -1 → get_tail_type T N = (BODY_PART_TAIL_UP, none)) ∧
    (N.X - T.X = -1 ∧ N.Y - T.Y = 0 → get_tail_type T N = (BODY_PART_TAIL_LEFT, none)) ∧
    (N.X - T.X = 1 ∧ N.Y - T.Y = 0 → get_tail_type T N = (BODY_PART_TAIL_RIGHT, none)) := by
  unfold get_tail_type
  simp only [tail_lookup, int8]
  refine ⟨?_, ?_, ?_, ?_⟩ <;> rintro ⟨h1, h2⟩ <;> rw [h1, h2] <;> norm_num

theorem get_part_type_of_deltas (A B C : Point) (x1 x2 y1 y2 : Int)
    (h1 : B.X - A.X = x1) (h2 : B.Y - A.Y = y1) (k1 : C.X - B.X = x2) (k2 : C.Y - B.Y = y2) :
    get_part_type A B C =
      match _BODY_TYPE_DELTAS.lookup (int8 x1, int8 x2, int8 y1, int8 y2),
        _BODY_TYPE_DELTAS.lookup (int8 (-x2), int8 (-x1), int8 (-y2), int8 (-y1)) with
      | some type1, _ => (type1, none)
      | none, some type2 => (type2, none)
      | none, none => (0, some (.unknown_body A B C)) := by
  unfold get_part_type
  rw [← neg_sub C.X B.X, ← neg_sub B.X A.X, ← neg_sub C.Y B.Y, ← neg_sub B.Y A.Y, h1, h2, k1, k2]

theorem get_part_type_of_steps (A B C : Point)
    (hAB : IsUnitStep A B) (hBC : IsUnitStep B C) (hCA : C ≠ A) :
    (get_part_type A B C).2 = none := by
  have hne : ¬ (C.X = A.X ∧ C.Y = A.Y) := by
    intro h; apply hCA
    cases A; cases C; simp_all
  simp only [IsUnitStep] at hAB hBC
  rcases hAB with h | h | h | h <;> rcases hBC with k | k | k | k <;>
    obtain ⟨h1, h2⟩ := h <;> obtain ⟨k1, k2⟩ := k <;>
    first
    | (exfalso; omega)
    | (rw [get_part_type_of_deltas A B C _ _ _ _ h1 h2 k1 k2]
       simp only [body_lookup, int8]
       norm_num)

theorem chain_getElem {α : Type} {R : α → α → Prop} :
    ∀ (l : List α) (i : Nat) (a b : α), List.Chain' R l → l[i]? = some a →
      l[i + 1]? = some b → R a b := by
  intro l
  induction l with
  | nil => intro i a b _ h; simp at h
  | cons x rest ih =>
    intro i a b hc ha hb
    cases i with
    | zero =>
      cases rest with
      | nil => simp at hb
      | cons y rest' =>
        simp at ha hb
        subst ha hb
        exact (List.chain'_cons.1 hc).1
    | succ j =>
      have hc' : List.Chain' R rest := (List.chain'_cons'.1 hc).2
      exact ih j a b hc' (by simpa using ha) (by simpa using hb)

theorem cellsOf_getElem (body : List SnakePart) (i : Nat) (p : SnakePart)
    (h : body[i]? = some p) : (cellsOf body)[i]? = some p.Cord := by
  simp [cellsOf, h]

theorem cellsOf_set (body : List SnakePart) (i : Nat) (p q : SnakePart)
    (h : body[i]? = some p) (hq : q.Cord = p.Cord) : cellsOf (body.set i q) = cellsOf body := by
  unfold cellsOf
  rw [List.map_set]
  apply List.ext_getElem?
  intro j
  rw [List.getElem?_set]
  split_ifs with h1 h2
  · subst h1; simp [h, hq]
  · subst h1
    simp at h2
    have := List.getElem?_eq_none h2
    rw [this] at h; cases h
  · rfl

/-- Outcome of the tail block on a body with at most one segment. -/
theorem retag_tail_short (body : List SnakePart) (h : body.length ≤ 1) :
    retag_tail body = .ok body := by
  unfold retag_tail
  rw [if_neg (by omega)]

/-- Outcome of the tail block on a body with two segments or more. -/
theorem retag_tail_cons (p0 p1 : SnakePart) (rest : List SnakePart) :
    retag_tail (p0 :: p1 :: rest) =
      match get_tail_type p0.Cord p1.Cord with
      | (tail_type, none) => .ok ({ p0 with PartType := tail_type } :: p1 :: rest)
      | (_, some err) => .error (.fatal err) := by
  unfold retag_tail
  simp

theorem retag_tail_ok_inv (body b1 : List SnakePart) (h : retag_tail body = .ok b1) :
    cellsOf b1 = cellsOf body ∧ b1.length = body.length ∧ b1.drop 1 = body.drop 1 ∧
    (2 ≤ body.length → ∃ p0 p1, b1[0]? = some p0 ∧ b1[1]? = some p1 ∧
        get_tail_type p0.Cord p1.Cord = (p0.PartType, none)) := by
  match body, h with
  | [], h =>
    rw [retag_tail_short _ (by simp)] at h
    cases h; simp
  | [p], h =>
    rw [retag_tail_short _ (by simp)] at h
    cases h; simp
  | p0 :: p1 :: rest, h =>
    rw [retag_tail_cons] at h
    rcases hg : get_tail_type p0.Cord p1.Cord with ⟨t, _ | err⟩
    · rw [hg] at h
      simp only [Except.ok.injEq] at h
      subst h
      simp [cellsOf, hg]
    · rw [hg] at h
      cases h


theorem retag_old_head_short (body : List SnakePart) (h : body.length ≤ 2) :
    retag_old_head body = .ok body := by
  unfold retag_old_head
  rw [if_neg (by omega)]

/-- Outcome of the old-head block on a body with three segments or more. -/
theorem retag_old_head_long (body : List SnakePart) (h : 2 < body.length) :
    ∃ q1 q2 q3, body[body.length - 1]? = some q1 ∧ body[body.length - 2]? = some q2 ∧
      body[body.length - 3]? = some q3 ∧
      retag_old_head body =
        match get_part_type q1.Cord q2.Cord q3.Cord with
        | (t, none) => .ok (body.set (body.length - 2) { q2 with PartType := t })
        | (_, some err) => .error (.fatal err) := by
  have h1 : body.length - 1 < body.length := by omega
  have h2 : body.length - 2 < body.length := by omega
  have h3 : body.length - 3 < body.length := by omega
  refine ⟨body[body.length - 1], body[body.length - 2], body[body.length - 3],
    List.getElem?_eq_getElem h1, List.getElem?_eq_getElem h2, List.getElem?_eq_getElem h3, ?_⟩
  unfold retag_old_head
  rw [if_pos h, List.getElem?_eq_getElem h1, List.getElem?_eq_getElem h2,
    List.getElem?_eq_getElem h3]

theorem retag_old_head_ok_inv (body b2 : List SnakePart) (h : retag_old_head body = .ok b2) :
    cellsOf b2 = cellsOf body ∧ b2.length = body.length ∧ b2[0]? = body[0]? := by
  by_cases hl : 2 < body.length
  · obtain ⟨q1, q2, q3, e1, e2, e3, hr⟩ := retag_old_head_long body hl
    rw [hr] at h
    rcases hg : get_part_type q1.Cord q2.Cord q3.Cord with ⟨t, _ | err⟩
    · rw [hg] at h
      simp only [Except.ok.injEq] at h
      subst h
      refine ⟨cellsOf_set body _ q2 _ e2 rfl, by simp, ?_⟩
      rw [List.getElem?_set]
      rw [if_neg (by omega)]
    · rw [hg] at h
      cases h
  · rw [retag_old_head_short body (by omega)] at h
    cases h
    exact ⟨rfl, rfl, rfl⟩

theorem retag_old_head_ok_of (body : List SnakePart)
    (hchain : List.Chain' IsUnitStep (cellsOf body))
    (hturn : ∀ q1 q3, 2 < body.length → body[body.length - 1]? = some q1 →
      body[body.length - 3]? = some q3 → q3.Cord ≠ q1.Cord) :
    ∃ b2, retag_old_head body = .ok b2 := by
  by_cases hl : 2 < body.length
  · obtain ⟨q1, q2, q3, e1, e2, e3, hr⟩ := retag_old_head_long body hl
    have s32 : IsUnitStep q3.Cord q2.Cord := by
      apply chain_getElem (cellsOf body) (body.length - 3) _ _ hchain
        (cellsOf_getElem _ _ _ e3)
      have : body.length - 3 + 1 = body.length - 2 := by omega
      rw [this]
      exact cellsOf_getElem _ _ _ e2
    have s21 : IsUnitStep q2.Cord q1.Cord := by
      apply chain_getElem (cellsOf body) (body.length - 2) _ _ hchain
        (cellsOf_getElem _ _ _ e2)
      have : body.length - 2 + 1 = body.length - 1 := by omega
      rw [this]
      exact cellsOf_getElem _ _ _ e1
    have hok := get_part_type_of_steps q1.Cord q2.Cord q3.Cord (isUnitStep_symm s21)
      (isUnitStep_symm s32) (hturn q1 q3 hl e1 e3)
    rw [hr]
    rcases hg : get_part_type q1.Cord q2.Cord q3.Cord with ⟨t, _ | err⟩
    · exact ⟨_, rfl⟩
    · rw [hg] at hok
      cases hok
  · exact ⟨body, retag_old_head_short body (by omega)⟩

theorem retag_tail_ok_of (body : List SnakePart)
    (hchain : List.Chain' IsUnitStep (cellsOf body)) :
    ∃ b1, retag_tail body = .ok b1 := by
  match body, hchain with
  | [], _ => exact ⟨_, retag_tail_short _ (by simp)⟩
  | [p], _ => exact ⟨_, retag_tail_short _ (by simp)⟩
  | p0 :: p1 :: rest, hchain =>
    have hs : IsUnitStep p0.Cord p1.Cord := by
      simp only [cellsOf, List.map_cons] at hchain
      exact (List.chain'_cons.1 hchain).1
    have hok := get_tail_type_of_step _ _ hs
    rw [retag_tail_cons]
    rcases hg : get_tail_type p0.Cord p1.Cord with ⟨t, _ | err⟩
    · exact ⟨_, rfl⟩
    · rw [hg] at hok
      cases hok


/-- Body after the append and the optional cut of the tail (snake.go:185-193). -/
theorem maybe_consume_unfold (ss : SnakeState) (new_head : SnakePart) :
    maybe_consume_apple_and_grow_snake ss new_head =
      if new_head.Cord = ss.Apple then
        (retag_tail (ss.SnakeBody ++ [new_head]) >>= retag_old_head).map
          (fun body => { ss with SnakeBody := body, Apple := ⟨-1, -1⟩, Score := ss.Score + 1 })
      else
        (retag_tail ((ss.SnakeBody ++ [new_head]).drop 1) >>= retag_old_head).map
          (fun body => { ss with SnakeBody := body }) := by
  unfold maybe_consume_apple_and_grow_snake
  simp only []
  split_ifs with h
  · cases h1 : retag_tail (ss.SnakeBody ++ [new_head]) with
    | error e => rfl
    | ok b1 =>
      cases h2 : retag_old_head b1 with
      | error e => simp [bind, Except.bind, Except.map, h2]
      | ok b2 => simp [bind, Except.bind, Except.map, h2]
  · cases h1 : retag_tail ((ss.SnakeBody ++ [new_head]).drop 1) with
    | error e => rfl
    | ok b1 =>
      cases h2 : retag_old_head b1 with
      | error e => simp [bind, Except.bind, Except.map, h2]
      | ok b2 => simp [bind, Except.bind, Except.map, h2]

theorem retag_ok_inv (body b2 : List SnakePart)
    (h : (retag_tail body >>= retag_old_head) = .ok b2) :
    cellsOf b2 = cellsOf body ∧ b2.length = body.length ∧
    (2 ≤ body.length → ∃ p0 p1, b2[0]? = some p0 ∧ b2[1]? = some p1 ∧
        get_tail_type p0.Cord p1.Cord = (p0.PartType, none)) := by
  cases h1 : retag_tail body with
  | error e => rw [h1] at h; cases h
  | ok b1 =>
    rw [h1] at h
    have h2 : retag_old_head b1 = .ok b2 := h
    obtain ⟨c1, l1, _, t1⟩ := retag_tail_ok_inv body b1 h1
    obtain ⟨c2, l2, z2⟩ := retag_old_head_ok_inv b1 b2 h2
    refine ⟨c2.trans c1, l2.trans l1, ?_⟩
    intro hlen
    obtain ⟨p0, p1, e0, e1, ht⟩ := t1 hlen
    have hlt : 1 < b2.length := by omega
    refine ⟨p0, b2[1], z2.trans e0, List.getElem?_eq_getElem hlt, ?_⟩
    have hc : (cellsOf b2)[1]? = (cellsOf b1)[1]? := by rw [c2]
    rw [cellsOf_getElem b2 1 _ (List.getElem?_eq_getElem hlt), cellsOf_getElem b1 1 _ e1] at hc
    simp only [Option.some.injEq] at hc
    rw [hc]
    exact ht

theorem retag_ok_of (body : List SnakePart)
    (hchain : List.Chain' IsUnitStep (cellsOf body))
    (hturn : ∀ q1 q3, 2 < body.length → body[body.length - 1]? = some q1 →
      body[body.length - 3]? = some q3 → q3.Cord ≠ q1.Cord) :
    ∃ b2, (retag_tail body >>= retag_old_head) = .ok b2 := by
  obtain ⟨b1, h1⟩ := retag_tail_ok_of body hchain
  obtain ⟨c1, l1, d1, _⟩ := retag_tail_ok_inv body b1 h1
  have hturn1 : ∀ q1 q3, 2 < b1.length → b1[b1.length - 1]? = some q1 →
      b1[b1.length - 3]? = some q3 → q3.Cord ≠ q1.Cord := by
    intro q1 q3 hl e1 e3
    rw [l1] at hl e1 e3
    have f1 : body[body.length - 1]? = some q1 := by
      have := congrArg (fun l => l[body.length - 1 - 1]?) d1
      simp only [List.getElem?_drop] at this
      have e : 1 + (body.length - 1 - 1) = body.length - 1 := by omega
      rw [e] at this
      rw [← this]; exact e1
    have hc : (cellsOf b1)[body.length - 3]? = (cellsOf body)[body.length - 3]? := by rw [c1]
    rw [cellsOf_getElem b1 _ _ e3] at hc
    have hlt : body.length - 3 < body.length := by omega
    rw [cellsOf_getElem body _ _ (List.getElem?_eq_getElem hlt)] at hc
    simp only [Option.some.injEq] at hc
    rw [hc]
    exact hturn q1 _ hl f1 (List.getElem?_eq_getElem hlt)
  obtain ⟨b2, h2⟩ := retag_old_head_ok_of b1 (by rw [c1]; exact hchain) hturn1
  exact ⟨b2, by rw [h1]; exact h2⟩


theorem advance_snake_head_total (ss : SnakeState) (hbody : ss.SnakeBody ≠ []) :
    ∃ new_head, advance_snake_head ss = .ok new_head := by
  have hlt : ss.SnakeBody.length - 1 < ss.SnakeBody.length := by
    have := List.length_pos.2 hbody
    omega
  unfold advance_snake_head
  simp only [List.getElem?_eq_getElem hlt]
  split_ifs <;> exact ⟨_, rfl⟩

theorem advance_snake_head_inv (ss : SnakeState) (new_head : SnakePart)
    (h : advance_snake_head ss = .ok new_head) :
    ∃ old_head, ss.SnakeBody[ss.SnakeBody.length - 1]? = some old_head ∧
      0 < ss.SnakeBody.length ∧
      ((ss.Direction = UP ∨ ss.Direction = DOWN ∨ ss.Direction = LEFT ∨ ss.Direction = RIGHT) →
        IsUnitStep old_head.Cord new_head.Cord) := by
  unfold advance_snake_head at h
  simp only [] at h
  cases ho : ss.SnakeBody[ss.SnakeBody.length - 1]? with
  | none => rw [ho] at h; cases h
  | some old_head =>
    rw [ho] at h
    refine ⟨old_head, rfl, ?_, ?_⟩
    · cases hb : ss.SnakeBody with
      | nil => rw [hb] at ho; simp at ho
      | cons a l => simp
    · intro hdir
      simp only [UP, DOWN, LEFT, RIGHT] at h hdir
      unfold IsUnitStep
      split_ifs at h <;> (simp only [Except.ok.injEq] at h; subst h; simp only []; omega)

theorem maybe_create_apple_inv (ss ss2 : SnakeState) (rx ry : Nat)
    (h : maybe_create_apple ss rx ry = .ok ss2) : ss2 = { ss with Apple := ss2.Apple } := by
  unfold maybe_create_apple at h
  split_ifs at h with ha
  · cases h; rfl
  · cases hx : rand_Intn rx (ss.Width - 2) with
    | error e => rw [hx] at h; cases h
    | ok x =>
      cases hy : rand_Intn ry (ss.Height - 2) with
      | error e => rw [hx, hy] at h; cases h
      | ok y =>
        rw [hx, hy] at h
        cases h; rfl

theorem maybe_create_apple_total (ss : SnakeState) (rx ry : Nat)
    (hw : 3 ≤ ss.Width) (hh : 3 ≤ ss.Height) :
    ∃ ss2, maybe_create_apple ss rx ry = .ok ss2 := by
  unfold maybe_create_apple
  split_ifs with ha
  · exact ⟨_, rfl⟩
  · unfold rand_Intn
    rw [if_neg (by omega), if_neg (by omega)]
    exact ⟨_, rfl⟩

theorem Tick_unfold (ss : SnakeState) (new_head : SnakePart) (rx ry : Nat)
    (hover : ss.GameOver = false) (hhead : advance_snake_head ss = .ok new_head) :
    Tick ss rx ry =
      if snake_touched ss new_head.Cord = true then .ok { ss with GameOver := true }
      else maybe_consume_apple_and_grow_snake ss new_head >>=
        fun ss1 => maybe_create_apple ss1 rx ry := by
  unfold Tick
  rw [hover, hhead]
  rfl

theorem touches_body_iff (p : Point) (l : List SnakePart) :
    touches_body p l = true ↔ ∃ part ∈ l, p = part.Cord := by
  induction l with
  | nil => simp [touches_body]
  | cons a rest ih =>
    obtain ⟨px, py⟩ := p
    obtain ⟨⟨ax, ay⟩, t⟩ := a
    simp only [touches_body, List.mem_cons, exists_eq_or_imp, Point.mk.injEq]
    split_ifs with h
    · simp [h]
    · simp only [ih]
      constructor
      · intro h'; exact Or.inr h'
      · rintro (h' | h')
        · exact absurd h' h
        · exact h'

theorem mem_drop_one_iff {α : Type} (l : List α) (a : α) :
    a ∈ l.drop 1 ↔ ∃ i, 1 ≤ i ∧ l[i]? = some a := by
  cases l with
  | nil => simp
  | cons x rest =>
    simp only [List.drop_succ_cons, List.drop_zero, List.mem_iff_getElem?]
    constructor
    · rintro ⟨i, hi⟩
      exact ⟨i + 1, by omega, by simpa using hi⟩
    · rintro ⟨i, h1, hi⟩
      obtain ⟨j, rfl⟩ : ∃ j, i = j + 1 := ⟨i - 1, by omega⟩
      exact ⟨j, by simpa using hi⟩

theorem snake_touched_false_inv (ss : SnakeState) (p : Point)
    (h : snake_touched ss p = false) :
    3 ≤ ss.Width ∧ 3 ≤ ss.Height ∧
      ∀ i part, 1 ≤ i → ss.SnakeBody[i]? = some part → part.Cord ≠ p := by
  unfold snake_touched at h
  split_ifs at h with h1 h2
  refine ⟨by omega, by omega, ?_⟩
  intro i part hi hg hp
  have : touches_body p (ss.SnakeBody.drop 1) = true :=
    (touches_body_iff _ _).2 ⟨part, (mem_drop_one_iff _ _).2 ⟨i, hi, hg⟩, hp.symm⟩
  rw [this] at h
  cases h


theorem cellsOf_append_singleton (body : List SnakePart) (p : SnakePart) :
    cellsOf (body ++ [p]) = cellsOf body ++ [p.Cord] := by
  simp [cellsOf]

/-- Appending the candidate head to a connected body gives a connected body. -/
theorem chain_append_head (body : List SnakePart) (old_head new_head : SnakePart)
    (hchain : List.Chain' IsUnitStep (cellsOf body))
    (hlast : body[body.length - 1]? = some old_head)
    (hstep : IsUnitStep old_head.Cord new_head.Cord) :
    List.Chain' IsUnitStep (cellsOf (body ++ [new_head])) := by
  rw [cellsOf_append_singleton]
  refine List.Chain'.append hchain (List.chain'_singleton _) ?_
  intro x hx y hy
  have hl : (cellsOf body).getLast? = some old_head.Cord := by
    rw [List.getLast?_eq_getElem?]
    have : (cellsOf body).length = body.length := by simp [cellsOf]
    rw [this]
    exact cellsOf_getElem _ _ _ hlast
  rw [hl] at hx
  simp only [Option.mem_def, Option.some.injEq, List.head?_cons] at hx hy
  subst hx hy
  exact hstep

/-- The last and the third-last segment of the grown body. -/
theorem grown_turn (body : List SnakePart) (new_head : SnakePart)
    (hneck : ∀ neck, body[body.length - 2]? = some neck → 2 ≤ body.length →
      neck.Cord ≠ new_head.Cord) :
    ∀ q1 q3, 2 < (body ++ [new_head]).length →
      (body ++ [new_head])[(body ++ [new_head]).length - 1]? = some q1 →
      (body ++ [new_head])[(body ++ [new_head]).length - 3]? = some q3 → q3.Cord ≠ q1.Cord := by
  intro q1 q3 hl e1 e3
  simp only [List.length_append, List.length_singleton] at hl e1 e3
  have a1 : body.length + 1 - 1 = body.length := by omega
  have a3 : body.length + 1 - 3 = body.length - 2 := by omega
  rw [a1, List.getElem?_append_right (le_refl _)] at e1
  rw [a3, List.getElem?_append_left (by omega)] at e3
  simp only [Nat.sub_self, List.getElem?_cons_zero, Option.some.injEq] at e1
  subst e1
  exact hneck q3 e3 (by omega)

/-- The last and the third-last segment of the body that moved without growing. -/
theorem moved_turn (body : List SnakePart) (new_head : SnakePart)
    (hself : ∀ i part, 1 ≤ i → body[i]? = some part → part.Cord ≠ new_head.Cord) :
    ∀ q1 q3, 2 < ((body ++ [new_head]).drop 1).length →
      ((body ++ [new_head]).drop 1)[((body ++ [new_head]).drop 1).length - 1]? = some q1 →
      ((body ++ [new_head]).drop 1)[((body ++ [new_head]).drop 1).length - 3]? = some q3 →
      q3.Cord ≠ q1.Cord := by
  intro q1 q3 hl e1 e3
  simp only [List.length_drop, List.length_append, List.length_singleton,
    List.getElem?_drop] at hl e1 e3
  have a1 : 1 + (body.length + 1 - 1 - 1) = body.length := by omega
  have a3 : 1 + (body.length + 1 - 1 - 3) = body.length - 2 := by omega
  rw [a1, List.getElem?_append_right (le_refl _)] at e1
  rw [a3, List.getElem?_append_left (by omega)] at e3
  simp only [Nat.sub_self, List.getElem?_cons_zero, Option.some.injEq] at e1
  subst e1
  exact hself _ q3 (by omega) e3


theorem except_map_eq_ok {ε α β : Type} (x : Except ε α) (f : α → β) (y : β)
    (h : x.map f = .ok y) : ∃ a, x = .ok a ∧ f a = y := by
  cases x with
  | error e => cases h
  | ok a => exact ⟨a, rfl, by simpa [Except.map] using h⟩

/-- What a returning call of `maybe_consume_apple_and_grow_snake` has done. -/
theorem maybe_consume_ok_inv (ss ss1 : SnakeState) (new_head : SnakePart)
    (h : maybe_consume_apple_and_grow_snake ss new_head = .ok ss1) :
    (ss1.Direction = ss.Direction ∧ ss1.Height = ss.Height ∧ ss1.Width = ss.Width ∧
      ss1.GameOver = ss.GameOver) ∧
    (new_head.Cord = ss.Apple →
      cellsOf ss1.SnakeBody = cellsOf ss.SnakeBody ++ [new_head.Cord] ∧
      ss1.Score = ss.Score + 1 ∧ ss1.Apple = ⟨-1, -1⟩) ∧
    (new_head.Cord ≠ ss.Apple →
      cellsOf ss1.SnakeBody = (cellsOf ss.SnakeBody ++ [new_head.Cord]).drop 1 ∧
      ss1.Score = ss.Score ∧ ss1.Apple = ss.Apple) ∧
    (2 ≤ ss1.SnakeBody.length → ∃ p0 p1, ss1.SnakeBody[0]? = some p0 ∧
      ss1.SnakeBody[1]? = some p1 ∧ get_tail_type p0.Cord p1.Cord = (p0.PartType, none)) := by
  rw [maybe_consume_unfold] at h
  split_ifs at h with ha
  · obtain ⟨b2, hb, rfl⟩ := except_map_eq_ok _ _ _ h
    obtain ⟨c, l, t⟩ := retag_ok_inv _ _ hb
    refine ⟨⟨rfl, rfl, rfl, rfl⟩, ?_, fun hn => absurd ha hn, ?_⟩
    · intro _
      exact ⟨by rw [c, cellsOf_append_singleton], rfl, rfl⟩
    · intro h2
      exact t (by rw [← l]; exact h2)
  · obtain ⟨b2, hb, rfl⟩ := except_map_eq_ok _ _ _ h
    obtain ⟨c, l, t⟩ := retag_ok_inv _ _ hb
    refine ⟨⟨rfl, rfl, rfl, rfl⟩, fun hn => absurd hn ha, ?_, ?_⟩
    · intro _
      refine ⟨?_, rfl, rfl⟩
      rw [c, ← cellsOf_append_singleton]
      simp [cellsOf]
    · intro h2
      exact t (by rw [← l]; exact h2)

/-- Conditions under which `maybe_consume_apple_and_grow_snake` returns. -/
theorem maybe_consume_ok_of (ss : SnakeState) (new_head : SnakePart)
    (hchain : List.Chain' IsUnitStep (cellsOf (ss.SnakeBody ++ [new_head])))
    (hself : ∀ i part, 1 ≤ i → ss.SnakeBody[i]? = some part → part.Cord ≠ new_head.Cord)
    (hneck : new_head.Cord = ss.Apple → ∀ neck,
      ss.SnakeBody[ss.SnakeBody.length - 2]? = some neck → 2 ≤ ss.SnakeBody.length →
      neck.Cord ≠ new_head.Cord) :
    ∃ ss1, maybe_consume_apple_and_grow_snake ss new_head = .ok ss1 := by
  rw [maybe_consume_unfold]
  split_ifs with ha
  · obtain ⟨b2, hb⟩ := retag_ok_of _ hchain (grown_turn _ _ (hneck ha))
    rw [hb]
    exact ⟨_, rfl⟩
  · have hc : List.Chain' IsUnitStep (cellsOf ((ss.SnakeBody ++ [new_head]).drop 1)) := by
      have : cellsOf ((ss.SnakeBody ++ [new_head]).drop 1) =
          (cellsOf (ss.SnakeBody ++ [new_head])).drop 1 := by
        simp [cellsOf]
      rw [this]
      exact List.Chain'.drop hchain 1
    obtain ⟨b2, hb⟩ := retag_ok_of _ hc (moved_turn _ _ hself)
    rw [hb]
    exact ⟨_, rfl⟩

/-! ## Reachable states -/

theorem Tick_ok_inv (ss ss' : SnakeState) (rx ry : Nat) (h : Tick ss rx ry = .ok ss') :
    (ss.GameOver = true ∧ ss' = ss) ∨
    (ss.GameOver = false ∧ ∃ new_head, advance_snake_head ss = .ok new_head ∧
      ((snake_touched ss new_head.Cord = true ∧ ss' = { ss with GameOver := true }) ∨
       (snake_touched ss new_head.Cord = false ∧
          ∃ ss1, maybe_consume_apple_and_grow_snake ss new_head = .ok ss1 ∧
            maybe_create_apple ss1 rx ry = .ok ss'))) := by
  cases hg : ss.GameOver with
  | true =>
    left
    unfold Tick at h
    rw [hg] at h
    simp only [if_true, Except.ok.injEq] at h
    exact ⟨rfl, h.symm⟩
  | false =>
    right
    refine ⟨rfl, ?_⟩
    cases hh : advance_snake_head ss with
    | error e =>
      unfold Tick at h
      rw [hg, hh] at h
      cases h
    | ok new_head =>
      refine ⟨new_head, rfl, ?_⟩
      rw [Tick_unfold ss new_head rx ry hg hh] at h
      cases ht : snake_touched ss new_head.Cord with
      | true =>
        left
        rw [ht, if_pos rfl] at h
        simp only [Except.ok.injEq] at h
        exact ⟨rfl, h.symm⟩
      | false =>
        right
        refine ⟨rfl, ?_⟩
        rw [ht] at h
        cases h1 : maybe_consume_apple_and_grow_snake ss new_head with
        | error e => rw [h1] at h; cases h
        | ok ss1 =>
          rw [h1] at h
          exact ⟨ss1, rfl, h⟩

/-- Induction over reachable states, with `Tick` split into its three outcomes. -/
theorem reachable_induction (h w : Int) (P : SnakeState → Prop)
    (h0 : P (CreateSnake h w))
    (hupd : ∀ ss dir, Reachable h w ss → P ss → IsHeading dir → P (UpdateDirection ss dir))
    (hover : ∀ ss, Reachable h w ss → P ss → P { ss with GameOver := true })
    (hmove : ∀ ss new_head ss1 ss' rx ry, Reachable h w ss → P ss → ss.GameOver = false →
      advance_snake_head ss = .ok new_head → snake_touched ss new_head.Cord = false →
      maybe_consume_apple_and_grow_snake ss new_head = .ok ss1 →
      maybe_create_apple ss1 rx ry = .ok ss' → P ss') :
    ∀ ss, Reachable h w ss → P ss := by
  intro ss hr
  induction hr with
  | init => exact h0
  | update ss dir hr hd ih => exact hupd ss dir hr ih hd
  | tick ss ss' rx ry hr hT ih =>
    rcases Tick_ok_inv ss ss' rx ry hT with ⟨_, rfl⟩ | ⟨hg, new_head, hh, hcase⟩
    · exact ih
    · rcases hcase with ⟨_, rfl⟩ | ⟨ht, ss1, h1, h2⟩
      · exact hover ss hr ih
      · exact hmove ss new_head ss1 ss' rx ry hr ih hg hh ht h1 h2

theorem UpdateDirection_frame (ss : SnakeState) (dir : Int) :
    UpdateDirection ss dir = { ss with Direction := (UpdateDirection ss dir).Direction } := by
  unfold UpdateDirection
  split_ifs <;> rfl

theorem UpdateDirection_heading (ss : SnakeState) (dir : Int)
    (hs : IsHeading ss.Direction) (hd : IsHeading dir) :
    IsHeading (UpdateDirection ss dir).Direction := by
  unfold UpdateDirection
  split_ifs <;> assumption

theorem snake_touched_false_interior (ss : SnakeState) (p : Point)
    (h : snake_touched ss p = false) : InInterior ss.Height ss.Width p := by
  unfold snake_touched at h
  unfold InInterior
  split_ifs at h with h1 h2
  omega

/-- What a returning call of `maybe_create_apple` has done. -/
theorem maybe_create_apple_ok_inv (ss ss2 : SnakeState) (rx ry : Nat)
    (h : maybe_create_apple ss rx ry = .ok ss2) :
    (HasApple ss = true ∧ ss2 = ss) ∨
    (HasApple ss = false ∧ 0 < ss.Width - 2 ∧ 0 < ss.Height - 2 ∧
      ss2 = { ss with Apple := ⟨(rx : Int) % (ss.Width - 2) + 1,
        (ry : Int) % (ss.Height - 2) + 1⟩ }) := by
  unfold maybe_create_apple at h
  split_ifs at h with ha
  · left
    simp only [Except.ok.injEq] at h
    exact ⟨by simp [HasApple, ha.1, ha.2], h.symm⟩
  · right
    have hna : HasApple ss = false := by
      simp only [HasApple, Bool.and_eq_false_iff, decide_eq_false_iff_not]
      by_cases hx : ss.Apple.X > 0
      · exact Or.inr (fun hy => ha ⟨hx, hy⟩)
      · exact Or.inl hx
    unfold rand_Intn at h
    by_cases hw : ss.Width - 2 ≤ 0
    · rw [if_pos hw] at h; cases h
    · by_cases hh : ss.Height - 2 ≤ 0
      · rw [if_neg hw, if_pos hh] at h; cases h
      · rw [if_neg hw, if_neg hh] at h
        simp only [bind, Except.bind, Except.ok.injEq] at h
        exact ⟨hna, by omega, by omega, h.symm⟩

/-- Effect of a tick that moves the snake, from the two calls that make it up. -/
theorem move_step_inv (ss ss1 ss' : SnakeState) (new_head : SnakePart) (rx ry : Nat)
    (h1 : maybe_consume_apple_and_grow_snake ss new_head = .ok ss1)
    (h2 : maybe_create_apple ss1 rx ry = .ok ss') :
    ss'.Direction = ss.Direction ∧ ss'.Height = ss.Height ∧ ss'.Width = ss.Width ∧
    ss'.GameOver = ss.GameOver ∧ ss'.SnakeBody = ss1.SnakeBody ∧
    ((new_head.Cord = ss.Apple ∧
        cellsOf ss'.SnakeBody = cellsOf ss.SnakeBody ++ [new_head.Cord] ∧
        ss'.Score = ss.Score + 1 ∧ ss1.Apple = ⟨-1, -1⟩) ∨
     (new_head.Cord ≠ ss.Apple ∧
        cellsOf ss'.SnakeBody = (cellsOf ss.SnakeBody ++ [new_head.Cord]).drop 1 ∧
        ss'.Score = ss.Score ∧ ss1.Apple = ss.Apple)) := by
  obtain ⟨⟨fd, fh, fw, fg⟩, happle, hmove, _⟩ := maybe_consume_ok_inv ss ss1 new_head h1
  have e2 := maybe_create_apple_inv ss1 ss' rx ry h2
  have hb : ss'.SnakeBody = ss1.SnakeBody := by rw [e2]
  have hs : ss'.Score = ss1.Score := by rw [e2]
  refine ⟨by rw [e2]; exact fd, by rw [e2]; exact fh, by rw [e2]; exact fw,
    by rw [e2]; exact fg, hb, ?_⟩
  by_cases ha : new_head.Cord = ss.Apple
  · obtain ⟨c, s, a⟩ := happle ha
    exact Or.inl ⟨ha, by rw [hb]; exact c, by rw [hs]; exact s, a⟩
  · obtain ⟨c, s, a⟩ := hmove ha
    exact Or.inr ⟨ha, by rw [hb]; exact c, by rw [hs]; exact s, a⟩

/-- Cells of the body after a tick that moves the snake: cells of the old body or the
candidate. -/
theorem move_step_mem (ss ss1 ss' : SnakeState) (new_head : SnakePart) (rx ry : Nat)
    (h1 : maybe_consume_apple_and_grow_snake ss new_head = .ok ss1)
    (h2 : maybe_create_apple ss1 rx ry = .ok ss') (p : Point)
    (hp : p ∈ cellsOf ss'.SnakeBody) : p ∈ cellsOf ss.SnakeBody ∨ p = new_head.Cord := by
  obtain ⟨_, _, _, _, _, hc⟩ := move_step_inv ss ss1 ss' new_head rx ry h1 h2
  have hm : p ∈ cellsOf ss.SnakeBody ++ [new_head.Cord] := by
    rcases hc with ⟨_, c, _, _⟩ | ⟨_, c, _, _⟩
    · rw [c] at hp; exact hp
    · rw [c] at hp; exact List.mem_of_mem_drop hp
  simpa using hm

/-- Apple after `maybe_create_apple` on a board with an interior: the old one if present,
else a cell of the interior. -/
theorem maybe_create_apple_apple (ss ss2 : SnakeState) (rx ry : Nat)
    (h : maybe_create_apple ss rx ry = .ok ss2) :
    HasApple ss2 = true ∧
    ((HasApple ss = true ∧ ss2.Apple = ss.Apple) ∨
      (HasApple ss = false ∧ InInterior ss.Height ss.Width ss2.Apple)) := by
  rcases maybe_create_apple_ok_inv ss ss2 rx ry h with ⟨ha, rfl⟩ | ⟨ha, hw, hh, rfl⟩
  · exact ⟨ha, Or.inl ⟨ha, rfl⟩⟩
  · have hx := Int.emod_nonneg (rx : Int) (by omega : ss.Width - 2 ≠ 0)
    have hx2 := Int.emod_lt_of_pos (rx : Int) hw
    have hy := Int.emod_nonneg (ry : Int) (by omega : ss.Height - 2 ≠ 0)
    have hy2 := Int.emod_lt_of_pos (ry : Int) hh
    refine ⟨?_, Or.inr ⟨ha, ?_⟩⟩
    · simp only [HasApple, Bool.and_eq_true, decide_eq_true_eq]
      constructor <;> omega
    · simp only [InInterior]
      omega

/-- Invariants of every reachable state that do not depend on the draws. -/
theorem reachable_basic (h w : Int) (hh : 3 ≤ h) (hw : 3 ≤ w) :
    ∀ ss, Reachable h w ss →
      IsHeading ss.Direction ∧ ss.Height = h ∧ ss.Width = w ∧ ss.SnakeBody ≠ [] ∧
      (∀ p ∈ cellsOf ss.SnakeBody, InInterior h w p) ∧
      (ss.Apple = ⟨-1, -1⟩ ∨ InInterior h w ss.Apple) := by
  apply reachable_induction
  · refine ⟨Or.inr (Or.inl rfl), rfl, rfl, by simp [CreateSnake], ?_, Or.inl rfl⟩
    intro p hp
    simp only [CreateSnake, cellsOf, List.map_cons, List.map_nil, List.mem_singleton] at hp
    subst hp
    simp only [InInterior]
    rw [Int.tdiv_eq_ediv (by omega) (by omega), Int.tdiv_eq_ediv (by omega) (by omega)]
    omega
  · intro ss dir _ ⟨hd, e1, e2, e3, e4, e5⟩ hdir
    have hf := UpdateDirection_frame ss dir
    refine ⟨UpdateDirection_heading ss dir hd hdir, ?_, ?_, ?_, ?_, ?_⟩ <;> rw [hf] <;>
      assumption
  · intro ss _ ih
    exact ih
  · intro ss new_head ss1 ss' rx ry _ ⟨hd, e1, e2, e3, e4, e5⟩ hg hhead ht h1 h2
    obtain ⟨fd, fh, fw, fg, fb, hc⟩ := move_step_inv ss ss1 ss' new_head rx ry h1 h2
    have hin := snake_touched_false_interior ss _ ht
    rw [e1, e2] at hin
    obtain ⟨⟨_, gh, gw, _⟩, _⟩ := maybe_consume_ok_inv ss ss1 new_head h1
    refine ⟨by rw [fd]; exact hd, fh.trans e1, fw.trans e2, ?_, ?_, ?_⟩
    · intro hnil
      have hl : (cellsOf ss'.SnakeBody).length = 0 := by rw [hnil]; rfl
      have hl0 : 0 < ss.SnakeBody.length := List.length_pos.2 e3
      rcases hc with ⟨_, c, _, _⟩ | ⟨_, c, _, _⟩ <;> rw [c] at hl <;>
        simp only [cellsOf, List.length_append, List.length_map, List.length_singleton,
          List.length_drop] at hl <;> omega
    · intro p hp
      rcases move_step_mem ss ss1 ss' new_head rx ry h1 h2 p hp with hm | rfl
      · exact e4 p hm
      · exact hin
    · right
      obtain ⟨_, ha⟩ := maybe_create_apple_apple ss1 ss' rx ry h2
      rcases ha with ⟨hp, ea⟩ | ⟨_, hi⟩
      · rw [ea]
        rcases hc with ⟨_, _, _, a⟩ | ⟨_, _, _, a⟩
        · simp [HasApple, a] at hp
        · rw [a]
          rcases e5 with e | e
          · simp [HasApple, a, e] at hp
          · exact e
      · rw [gh, gw, e1, e2] at hi
        exact hi

theorem cellsOf_drop (body : List SnakePart) (n : Nat) :
    cellsOf (body.drop n) = (cellsOf body).drop n := by
  simp [cellsOf]

theorem cellsOf_length (body : List SnakePart) : (cellsOf body).length = body.length := by
  simp [cellsOf]

theorem drop_one_append_singleton {α : Type} (l : List α) (a : α) (hl : l ≠ []) :
    (l ++ [a]).drop 1 = l.drop 1 ++ [a] := by
  cases l with
  | nil => exact absurd rfl hl
  | cons x rest => simp

/-- A candidate that does not collide is off every cell of the body but the tail cell. -/
theorem not_touched_not_mem (ss : SnakeState) (p : Point) (h : snake_touched ss p = false) :
    p ∉ (cellsOf ss.SnakeBody).drop 1 := by
  intro hm
  rw [← cellsOf_drop] at hm
  simp only [cellsOf, List.mem_map] at hm
  obtain ⟨part, hpart, hp⟩ := hm
  obtain ⟨i, hi, hg⟩ := (mem_drop_one_iff _ _).1 hpart
  obtain ⟨_, _, hself⟩ := snake_touched_false_inv ss p h
  exact hself i part hi hg hp

/-- The candidate head is the old head displaced along a valid `Direction`. -/
theorem advance_snake_head_moved (ss : SnakeState) (new_head : SnakePart)
    (h : advance_snake_head ss = .ok new_head) (hd : IsHeading ss.Direction) :
    ∃ old_head, ss.SnakeBody[ss.SnakeBody.length - 1]? = some old_head ∧
      MovedAlong ss.Direction old_head.Cord new_head.Cord ∧
      new_head.PartType = (_HEAD_TYPE_FROM_DIR.lookup ss.Direction).getD 0 := by
  unfold advance_snake_head at h
  simp only [] at h
  cases ho : ss.SnakeBody[ss.SnakeBody.length - 1]? with
  | none => rw [ho] at h; cases h
  | some old_head =>
    rw [ho] at h
    refine ⟨old_head, rfl, ?_⟩
    unfold IsHeading at hd
    unfold MovedAlong
    simp only [UP, DOWN, LEFT, RIGHT] at h hd ⊢
    split_ifs at h <;>
      (simp only [Except.ok.injEq] at h; subst h; refine ⟨?_, rfl⟩; dsimp only; omega)

theorem movedAlong_unitStep {dir : Int} {a b : Point} (h : MovedAlong dir a b) :
    IsUnitStep a b := by
  unfold MovedAlong at h
  unfold IsUnitStep
  omega

/-- The body of a reachable state is a connected grid path. -/
theorem reachable_chain (h w : Int) :
    ∀ ss, Reachable h w ss →
      IsHeading ss.Direction ∧ List.Chain' IsUnitStep (cellsOf ss.SnakeBody) := by
  apply reachable_induction
  · exact ⟨Or.inr (Or.inl rfl), by simp [CreateSnake, cellsOf]⟩
  · intro ss dir _ ⟨hd, hc⟩ hdir
    refine ⟨UpdateDirection_heading ss dir hd hdir, ?_⟩
    rw [UpdateDirection_frame ss dir]
    exact hc
  · intro ss _ ih
    exact ih
  · intro ss new_head ss1 ss' rx ry _ ⟨hd, hc⟩ hg hhead ht h1 h2
    obtain ⟨fd, _, _, _, _, hcells⟩ := move_step_inv ss ss1 ss' new_head rx ry h1 h2
    obtain ⟨old_head, eoh, hm, _⟩ := advance_snake_head_moved ss new_head hhead hd
    have hca := chain_append_head _ _ _ hc eoh (movedAlong_unitStep hm)
    rw [cellsOf_append_singleton] at hca
    refine ⟨by rw [fd]; exact hd, ?_⟩
    rcases hcells with ⟨_, c, _, _⟩ | ⟨_, c, _, _⟩
    · rw [c]; exact hca
    · rw [c]; exact List.Chain'.drop hca 1

/-- In a reachable state the segments other than the tail lie on pairwise different cells. -/
theorem reachable_nodup_drop (h w : Int) :
    ∀ ss, Reachable h w ss →
      ss.SnakeBody ≠ [] ∧ ((cellsOf ss.SnakeBody).drop 1).Nodup := by
  apply reachable_induction
  · simp [CreateSnake, cellsOf]
  · intro ss dir _ ih _
    rw [UpdateDirection_frame ss dir]
    exact ih
  · intro ss _ ih
    exact ih
  · intro ss new_head ss1 ss' rx ry _ ⟨hne, hnd⟩ hg hhead ht h1 h2
    obtain ⟨_, _, _, _, _, hcells⟩ := move_step_inv ss ss1 ss' new_head rx ry h1 h2
    have hcne : cellsOf ss.SnakeBody ≠ [] := by
      intro e
      have := cellsOf_length ss.SnakeBody
      rw [e] at this
      exact hne (List.length_eq_zero.1 this.symm)
    have hnm := not_touched_not_mem ss _ ht
    have hall : ((cellsOf ss.SnakeBody).drop 1 ++ [new_head.Cord]).Nodup := by
      rw [List.nodup_append]
      refine ⟨hnd, List.nodup_singleton _, ?_⟩
      intro a ha hb
      simp only [List.mem_singleton] at hb
      subst hb
      exact hnm ha
    have hne' : ss'.SnakeBody ≠ [] := by
      intro e
      have hl : (cellsOf ss'.SnakeBody).length = 0 := by rw [e]; rfl
      have hl0 : 0 < ss.SnakeBody.length := List.length_pos.2 hne
      rcases hcells with ⟨_, c, _, _⟩ | ⟨_, c, _, _⟩ <;> rw [c] at hl <;>
        simp only [cellsOf, List.length_append, List.length_map, List.length_singleton,
          List.length_drop] at hl <;> omega
    refine ⟨hne', ?_⟩
    rcases hcells with ⟨_, c, _, _⟩ | ⟨_, c, _, _⟩
    · rw [c, drop_one_append_singleton _ _ hcne]
      exact hall
    · rw [c, drop_one_append_singleton _ _ hcne]
      exact List.Nodup.sublist (List.drop_sublist 1 _) hall

theorem freeSpawn_reachable (h w : Int) (ss : SnakeState) (hr : FreeSpawnReachable h w ss) :
    Reachable h w ss := by
  induction hr with
  | init => exact .init
  | update ss dir _ hd ih => exact .update ss dir ih hd
  | tick ss ss' rx ry _ hT _ ih => exact .tick ss ss' rx ry ih hT

theorem driver_reachable (h w : Int) (fresh : Bool) (ss : SnakeState)
    (hr : DriverReachable h w fresh ss) : Reachable h w ss := by
  induction hr with
  | init => exact .init
  | update ss dir _ hd ih => exact .update ss dir ih hd
  | tick fresh ss ss' rx ry _ hT ih => exact .tick ss ss' rx ry ih hT

theorem hasApple_of_interior (ss : SnakeState) (h w : Int)
    (hi : InInterior h w ss.Apple) : HasApple ss = true := by
  unfold InInterior at hi
  simp only [HasApple, Bool.and_eq_true, decide_eq_true_eq]
  constructor <;> omega

/-- While no tick creates an apple on the body, the segments lie on pairwise different cells
and the apple, when present, is off the body. -/
theorem freeSpawn_inv (h w : Int) (hh : 3 ≤ h) (hw : 3 ≤ w) (ss : SnakeState)
    (hr : FreeSpawnReachable h w ss) :
    (cellsOf ss.SnakeBody).Nodup ∧ (HasApple ss = true → ss.Apple ∉ cellsOf ss.SnakeBody) := by
  induction hr with
  | init => simp [CreateSnake, cellsOf, HasApple]
  | update ss dir _ hd ih =>
    rw [UpdateDirection_frame ss dir]
    exact ih
  | tick ss ss' rx ry hr hT hfree ih =>
    obtain ⟨ihn, iha⟩ := ih
    rcases Tick_ok_inv ss ss' rx ry hT with ⟨_, rfl⟩ | ⟨hg, new_head, hhead, hcase⟩
    · exact ⟨ihn, iha⟩
    · rcases hcase with ⟨_, rfl⟩ | ⟨ht, ss1, h1, h2⟩
      · exact ⟨ihn, iha⟩
      · obtain ⟨_, e1, e2, hne, _, _⟩ := reachable_basic h w hh hw ss (freeSpawn_reachable h w ss hr)
        obtain ⟨_, _, _, _, _, hcells⟩ := move_step_inv ss ss1 ss' new_head rx ry h1 h2
        have hin := snake_touched_false_interior ss _ ht
        have hnm := not_touched_not_mem ss _ ht
        have hcne : cellsOf ss.SnakeBody ≠ [] := by
          intro e
          have := cellsOf_length ss.SnakeBody
          rw [e] at this
          exact hne (List.length_eq_zero.1 this.symm)
        rcases hcells with ⟨ha, c, s, _⟩ | ⟨ha, c, s, _⟩
        · have hp : HasApple ss = true := by
            apply hasApple_of_interior ss ss.Height ss.Width
            rw [← ha]; exact hin
          have hoff : new_head.Cord ∉ cellsOf ss.SnakeBody := by
            rw [ha]; exact iha hp
          constructor
          · rw [c, List.nodup_append]
            refine ⟨ihn, List.nodup_singleton _, ?_⟩
            intro a h1 h2
            simp only [List.mem_singleton] at h2
            subst h2
            exact hoff h1
          · intro _ hm
            have := (hfree hm).2
            omega
        · constructor
          · rw [c, drop_one_append_singleton _ _ hcne, List.nodup_append]
            refine ⟨List.Nodup.sublist (List.drop_sublist 1 _) ihn, List.nodup_singleton _, ?_⟩
            intro a h1 h2
            simp only [List.mem_singleton] at h2
            subst h2
            exact hnm h1
          · intro hp' hm
            have hsame := (hfree hm).1
            have hp : HasApple ss = true := by
              simp only [HasApple] at hp' ⊢
              rw [← hsame]; exact hp'
            rw [c] at hm
            have hm' := List.mem_of_mem_drop hm
            rw [hsame] at hm'
            simp only [List.mem_append, List.mem_singleton] at hm'
            rcases hm' with hm' | hm'
            · exact iha hp hm'
            · exact ha hm'.symm

theorem UpdateDirection_not_opposite (ss : SnakeState) (dir : Int) :
    ¬ IsOpposite ss.Direction (UpdateDirection ss dir).Direction := by
  unfold UpdateDirection IsOpposite
  simp only [UP, DOWN, LEFT, RIGHT]
  split_ifs <;> (try dsimp only) <;> omega

/-- Last two cells of the body after a tick that moves the snake. -/
theorem last_two_cells (cells : List Point) (c : Point) (cells' : List Point)
    (hne : cells ≠ [])
    (hc : cells' = cells ++ [c] ∨ cells' = (cells ++ [c]).drop 1) (hl : 2 ≤ cells'.length) :
    cells'[cells'.length - 1]? = some c ∧
      cells'[cells'.length - 2]? = cells[cells.length - 1]? := by
  have hpos : 0 < cells.length := List.length_pos.2 hne
  rcases hc with rfl | rfl
  · simp only [List.length_append, List.length_singleton]
    have a1 : cells.length + 1 - 1 = cells.length := by omega
    have a2 : cells.length + 1 - 2 = cells.length - 1 := by omega
    rw [a1, a2, List.getElem?_append_right (le_refl _),
      List.getElem?_append_left (by omega)]
    simp
  · simp only [List.length_drop, List.length_append, List.length_singleton] at hl ⊢
    simp only [List.getElem?_drop]
    have a1 : 1 + (cells.length + 1 - 1 - 1) = cells.length := by omega
    have a2 : 1 + (cells.length + 1 - 1 - 2) = cells.length - 1 := by omega
    rw [a1, a2, List.getElem?_append_right (le_refl _),
      List.getElem?_append_left (by omega)]
    simp

theorem movedAlong_not_back {d dir : Int} {neck head cand : Point}
    (h1 : MovedAlong d neck head) (h2 : ¬ IsOpposite d dir) (h3 : MovedAlong dir head cand) :
    cand ≠ neck := by
  intro e
  subst e
  unfold MovedAlong at h1 h3
  unfold IsOpposite at h2
  simp only [UP, DOWN, LEFT, RIGHT] at h1 h2 h3
  omega

/-- With at most one `UpdateDirection` between ticks, the heading is never the reverse of the
head's last move; right after a tick it is the direction of that move. -/
theorem driver_direction (h w : Int) (fresh : Bool) (ss : SnakeState)
    (hr : DriverReachable h w fresh ss) :
    ss.GameOver = false → 2 ≤ ss.SnakeBody.length → ∀ neck head,
      ss.SnakeBody[ss.SnakeBody.length - 2]? = some neck →
      ss.SnakeBody[ss.SnakeBody.length - 1]? = some head →
      ∃ d, MovedAlong d neck.Cord head.Cord ∧ (fresh = true → d = ss.Direction) ∧
        ¬ IsOpposite d ss.Direction := by
  induction hr with
  | init =>
    intro _ hl
    simp [CreateSnake] at hl
  | update ss dir _ hd ih =>
    intro hg hl neck head e1 e2
    rw [UpdateDirection_frame ss dir] at hg hl e1 e2
    obtain ⟨d, hm, hfd, _⟩ := ih hg hl neck head e1 e2
    refine ⟨d, hm, fun hf => Bool.noConfusion hf, ?_⟩
    rw [hfd rfl]
    exact UpdateDirection_not_opposite ss dir
  | tick fresh ss ss' rx ry hr hT ih =>
    intro hg hl neck head e1 e2
    rcases Tick_ok_inv ss ss' rx ry hT with ⟨hover, rfl⟩ | ⟨hg0, new_head, hhead, hcase⟩
    · rw [hover] at hg; cases hg
    · rcases hcase with ⟨_, rfl⟩ | ⟨ht, ss1, h1, h2⟩
      · cases hg
      · have hreach := driver_reachable h w fresh ss hr
        obtain ⟨hd, _⟩ := reachable_chain h w ss hreach
        obtain ⟨hne, _⟩ := reachable_nodup_drop h w ss hreach
        obtain ⟨fd, _, _, _, _, hcells⟩ := move_step_inv ss ss1 ss' new_head rx ry h1 h2
        obtain ⟨old_head, eoh, hm, _⟩ := advance_snake_head_moved ss new_head hhead hd
        have hcne : cellsOf ss.SnakeBody ≠ [] := by
          intro e
          have := cellsOf_length ss.SnakeBody
          rw [e] at this
          exact hne (List.length_eq_zero.1 this.symm)
        have hc : cellsOf ss'.SnakeBody = cellsOf ss.SnakeBody ++ [new_head.Cord] ∨
            cellsOf ss'.SnakeBody = (cellsOf ss.SnakeBody ++ [new_head.Cord]).drop 1 := by
          rcases hcells with ⟨_, c, _, _⟩ | ⟨_, c, _, _⟩
          · exact Or.inl c
          · exact Or.inr c
        obtain ⟨l1, l2⟩ := last_two_cells _ _ _ hcne hc (by rw [cellsOf_length]; exact hl)
        rw [cellsOf_length] at l1 l2
        rw [cellsOf_getElem _ _ _ e2] at l1
        rw [cellsOf_getElem _ _ _ e1, cellsOf_length, cellsOf_getElem _ _ _ eoh] at l2
        simp only [Option.some.injEq] at l1 l2
        refine ⟨ss.Direction, ?_, fun _ => fd.symm, ?_⟩
        · rw [l1, l2]; exact hm
        · rw [fd]
          unfold IsHeading at hd
          unfold IsOpposite
          simp only [UP, DOWN, LEFT, RIGHT] at hd ⊢
          omega

/-- With at most one `UpdateDirection` between ticks, `Tick` always returns. -/
theorem driver_tick_total (h w : Int) (hh : 3 ≤ h) (hw : 3 ≤ w) (fresh : Bool)
    (ss : SnakeState) (hr : DriverReachable h w fresh ss) (rx ry : Nat) :
    ∃ ss', Tick ss rx ry = .ok ss' := by
  have hreach := driver_reachable h w fresh ss hr
  obtain ⟨hd, e1, e2, hne, _, _⟩ := reachable_basic h w hh hw ss hreach
  obtain ⟨_, hchain⟩ := reachable_chain h w ss hreach
  cases hg : ss.GameOver with
  | true =>
    refine ⟨ss, ?_⟩
    unfold Tick
    simp [hg]
  | false =>
    obtain ⟨new_head, hhead⟩ := advance_snake_head_total ss hne
    rw [Tick_unfold ss new_head rx ry hg hhead]
    cases ht : snake_touched ss new_head.Cord with
    | true => exact ⟨_, by rw [if_pos rfl]⟩
    | false =>
      obtain ⟨old_head, eoh, hm, _⟩ := advance_snake_head_moved ss new_head hhead hd
      obtain ⟨_, _, hself⟩ := snake_touched_false_inv ss _ ht
      have hc := chain_append_head _ _ _ hchain eoh (movedAlong_unitStep hm)
      have hneck : new_head.Cord = ss.Apple → ∀ neck,
          ss.SnakeBody[ss.SnakeBody.length - 2]? = some neck → 2 ≤ ss.SnakeBody.length →
          neck.Cord ≠ new_head.Cord := by
        intro _ neck en hl
        obtain ⟨d, hmd, _, hno⟩ := driver_direction h w fresh ss hr hg hl neck old_head en eoh
        exact (movedAlong_not_back hmd hno hm).symm
      obtain ⟨ss1, h1⟩ := maybe_consume_ok_of ss new_head hc hself hneck
      obtain ⟨⟨_, fh, fw, _⟩, _⟩ := maybe_consume_ok_inv ss ss1 new_head h1
      obtain ⟨ss2, h2⟩ := maybe_create_apple_total ss1 rx ry (by rw [fw, e2]; exact hw)
        (by rw [fh, e1]; exact hh)
      refine ⟨ss2, ?_⟩
      rw [h1]
      exact h2

/-! ## Orientation tags -/

theorem getElem?_of_drop_one_eq {α : Type} (l l' : List α) (h : l'.drop 1 = l.drop 1)
    (i : Nat) (hi : 1 ≤ i) : l'[i]? = l[i]? := by
  have := congrArg (fun x => x[i - 1]?) h
  simp only [List.getElem?_drop] at this
  have e : 1 + (i - 1) = i := by omega
  rw [e] at this
  exact this

/-- Tags after the old-head block: only the segment behind the head is re-tagged, with the
tag of its two neighbours. -/
theorem retag_old_head_ok_tags (body b2 : List SnakePart) (h : retag_old_head body = .ok b2) :
    (∀ i, i ≠ body.length - 2 → b2[i]? = body[i]?) ∧
    (2 < body.length → ∃ q1 q2 q3, b2[body.length - 1]? = some q1 ∧
      b2[body.length - 2]? = some q2 ∧ b2[body.length - 3]? = some q3 ∧
      get_part_type q1.Cord q2.Cord q3.Cord = (q2.PartType, none)) := by
  by_cases hl : 2 < body.length
  · obtain ⟨q1, q2, q3, e1, e2, e3, hr⟩ := retag_old_head_long body hl
    rw [hr] at h
    rcases hg : get_part_type q1.Cord q2.Cord q3.Cord with ⟨t, _ | err⟩
    · rw [hg] at h
      simp only [Except.ok.injEq] at h
      subst h
      constructor
      · intro i hi
        rw [List.getElem?_set, if_neg (by omega)]
      · intro _
        refine ⟨q1, { q2 with PartType := t }, q3, ?_, ?_, ?_, ?_⟩
        · rw [List.getElem?_set, if_neg (by omega)]; exact e1
        · rw [List.getElem?_set, if_pos rfl, if_pos (by omega)]
        · rw [List.getElem?_set, if_neg (by omega)]; exact e3
        · exact hg
    · rw [hg] at h
      cases h
  · rw [retag_old_head_short body (by omega)] at h
    cases h
    exact ⟨fun _ _ => rfl, fun h2 => absurd h2 hl⟩

/-- Tags after the two re-tagging blocks. -/
theorem retag_ok_tags (m b2 : List SnakePart)
    (h : (retag_tail m >>= retag_old_head) = .ok b2) :
    (∀ i, 1 ≤ i → i ≠ m.length - 2 → b2[i]? = m[i]?) ∧
    (2 < m.length → ∃ q1 q2 q3, b2[m.length - 1]? = some q1 ∧
      b2[m.length - 2]? = some q2 ∧ b2[m.length - 3]? = some q3 ∧
      get_part_type q1.Cord q2.Cord q3.Cord = (q2.PartType, none)) := by
  cases h1 : retag_tail m with
  | error e => rw [h1] at h; cases h
  | ok b1 =>
    rw [h1] at h
    have h2 : retag_old_head b1 = .ok b2 := h
    obtain ⟨_, l1, d1, _⟩ := retag_tail_ok_inv m b1 h1
    obtain ⟨t1, t2⟩ := retag_old_head_ok_tags b1 b2 h2
    rw [l1] at t1 t2
    refine ⟨?_, t2⟩
    intro i hi hne
    rw [t1 i hne]
    exact getElem?_of_drop_one_eq m b1 d1 i hi

/-- Body on which the re-tagging blocks of `maybe_consume_apple_and_grow_snake` run. -/
theorem maybe_consume_ok_body (ss ss1 : SnakeState) (new_head : SnakePart)
    (h : maybe_consume_apple_and_grow_snake ss new_head = .ok ss1) :
    ∃ m, (m = ss.SnakeBody ++ [new_head] ∨ m = (ss.SnakeBody ++ [new_head]).drop 1) ∧
      (retag_tail m >>= retag_old_head) = .ok ss1.SnakeBody := by
  rw [maybe_consume_unfold] at h
  split_ifs at h with ha
  · obtain ⟨b2, hb, rfl⟩ := except_map_eq_ok _ _ _ h
    exact ⟨_, Or.inl rfl, hb⟩
  · obtain ⟨b2, hb, rfl⟩ := except_map_eq_ok _ _ _ h
    exact ⟨_, Or.inr rfl, hb⟩

/-- Segments of the body before the re-tagging, in terms of the old body: shifted by `k = 0`
when the snake grew and by `k = 1` when it moved. -/
theorem moved_body_index (old m : List SnakePart) (new_head : SnakePart)
    (hm : m = old ++ [new_head] ∨ m = (old ++ [new_head]).drop 1) :
    ∃ k, m.length + k = old.length + 1 ∧
      (∀ j, j + k < old.length → m[j]? = old[j + k]?) ∧
      (∀ j, j + k = old.length → m[j]? = some new_head) := by
  rcases hm with rfl | rfl
  · refine ⟨0, by simp, ?_, ?_⟩
    · intro j hj
      rw [List.getElem?_append_left (by omega)]
      rfl
    · intro j hj
      rw [List.getElem?_append_right (by omega)]
      have : j - old.length = 0 := by omega
      rw [this]; rfl
  · refine ⟨1, by simp, ?_, ?_⟩
    · intro j hj
      rw [List.getElem?_drop, List.getElem?_append_left (by omega), Nat.add_comm]
    · intro j hj
      rw [List.getElem?_drop, List.getElem?_append_right (by omega)]
      have : 1 + j - old.length = 0 := by omega
      rw [this]; rfl

/-- Cell of a segment after re-tagging. -/
theorem cord_of_cells_eq (b2 m : List SnakePart) (hc : cellsOf b2 = cellsOf m) (i : Nat)
    (p q : SnakePart) (hp : b2[i]? = some p) (hq : m[i]? = some q) : p.Cord = q.Cord := by
  have := congrArg (fun l => l[i]?) hc
  simp only [cellsOf_getElem _ _ _ hp, cellsOf_getElem _ _ _ hq, Option.some.injEq] at this
  exact this

/-- One tick that moves the snake leaves every segment with the tag of its geometry. -/
theorem tags_step (old m b2 : List SnakePart) (new_head old_head : SnakePart) (d : Int)
    (hm : m = old ++ [new_head] ∨ m = (old ++ [new_head]).drop 1)
    (hr : (retag_tail m >>= retag_old_head) = .ok b2)
    (hI : InteriorTagged old)
    (eoh : old[old.length - 1]? = some old_head) (hpos : 0 < old.length)
    (hd : IsHeading d) (hmv : MovedAlong d old_head.Cord new_head.Cord)
    (htag : new_head.PartType = (_HEAD_TYPE_FROM_DIR.lookup d).getD 0) :
    TailTagged b2 ∧ InteriorTagged b2 ∧ HeadTagged b2 := by
  obtain ⟨hc, hlen, htail⟩ := retag_ok_inv m b2 hr
  obtain ⟨hsame, hturn⟩ := retag_ok_tags m b2 hr
  obtain ⟨k, hk, hlow, hlast⟩ := moved_body_index old m new_head hm
  refine ⟨?_, ?_, ?_⟩
  · intro p0 p1 e0 e1
    have hl2 : 2 ≤ m.length := by
      rw [← hlen]
      have := (List.getElem?_eq_some.1 e1).1
      omega
    obtain ⟨r0, r1, f0, f1, ht⟩ := htail hl2
    rw [e0] at f0; rw [e1] at f1
    simp only [Option.some.injEq] at f0 f1
    subst f0 f1
    exact ht
  · intro i a b c ea eb ec
    have hi : i + 2 < m.length := by
      rw [← hlen]
      exact (List.getElem?_eq_some.1 ec).1
    by_cases hmid : i + 1 = m.length - 2
    · obtain ⟨q1, q2, q3, g1, g2, g3, hg⟩ := hturn (by omega)
      have x1 : m.length - 1 = i + 2 := by omega
      have x2 : m.length - 2 = i + 1 := by omega
      have x3 : m.length - 3 = i := by omega
      rw [x1, ec] at g1; rw [x2, eb] at g2; rw [x3, ea] at g3
      simp only [Option.some.injEq] at g1 g2 g3
      subst g1 g2 g3
      exact hg
    · have eb' : m[i + 1]? = some b := by rw [← hsame (i + 1) (by omega) hmid]; exact eb
      have hai : i < m.length := by omega
      have hci : i + 2 < m.length := hi
      have ea' : m[i]? = some m[i] := List.getElem?_eq_getElem hai
      have ec' : m[i + 2]? = some m[i + 2] := List.getElem?_eq_getElem hci
      have ca := cord_of_cells_eq b2 m hc i a _ ea ea'
      have cc := cord_of_cells_eq b2 m hc (i + 2) c _ ec ec'
      rw [hlow i (by omega)] at ea'
      rw [hlow (i + 1) (by omega)] at eb'
      rw [hlow (i + 2) (by omega)] at ec'
      have y1 : i + 1 + k = i + k + 1 := by omega
      have y2 : i + 2 + k = i + k + 2 := by omega
      rw [y1] at eb'; rw [y2] at ec'
      have := hI (i + k) _ _ _ ea' eb' ec'
      rw [ca, cc]
      exact this
  · intro neck head hl2 en eh
    rw [hlen] at hl2 en eh
    have eh' : m[m.length - 1]? = some head := by
      rw [← hsame (m.length - 1) (by omega) (by omega)]; exact eh
    rw [hlast (m.length - 1) (by omega)] at eh'
    simp only [Option.some.injEq] at eh'
    subst eh'
    have hni : m.length - 2 < m.length := by omega
    have en' : m[m.length - 2]? = some m[m.length - 2] := List.getElem?_eq_getElem hni
    have cn := cord_of_cells_eq b2 m hc (m.length - 2) neck _ en en'
    rw [hlow (m.length - 2) (by omega)] at en'
    have z : m.length - 2 + k = old.length - 1 := by omega
    rw [z, eoh] at en'
    simp only [Option.some.injEq] at en'
    refine ⟨d, hd, ?_, htag⟩
    rw [cn, ← en']
    exact hmv

/-- In a reachable state every segment carries the tag of its geometry. -/
theorem reachable_tags (h w : Int) :
    ∀ ss, Reachable h w ss →
      TailTagged ss.SnakeBody ∧ InteriorTagged ss.SnakeBody ∧ HeadTagged ss.SnakeBody := by
  apply reachable_induction
  · refine ⟨?_, ?_, ?_⟩
    · intro p0 p1 _ e1
      simp [CreateSnake] at e1
    · intro i a b c _ eb _
      simp [CreateSnake] at eb
    · intro neck head hl
      simp [CreateSnake] at hl
  · intro ss dir _ ih _
    rw [UpdateDirection_frame ss dir]
    exact ih
  · intro ss _ ih
    exact ih
  · intro ss new_head ss1 ss' rx ry hreach ⟨_, hI, _⟩ hg hhead ht h1 h2
    obtain ⟨hd, _⟩ := reachable_chain h w ss hreach
    obtain ⟨hne, _⟩ := reachable_nodup_drop h w ss hreach
    obtain ⟨old_head, eoh, hm, htag⟩ := advance_snake_head_moved ss new_head hhead hd
    obtain ⟨m, hmm, hr⟩ := maybe_consume_ok_body ss ss1 new_head h1
    have e2 := maybe_create_apple_inv ss1 ss' rx ry h2
    have hb : ss'.SnakeBody = ss1.SnakeBody := by rw [e2]
    rw [hb]
    exact tags_step ss.SnakeBody m ss1.SnakeBody new_head old_head ss.Direction hmm hr hI eoh
      (List.length_pos.2 hne) hd hm htag

/-- A state computed by `run` from a reachable state is reachable. -/
theorem reachable_of_run (h w : Int) (calls : List Call) :
    ∀ ss0 ss, Reachable h w ss0 → validCalls calls = true → run calls ss0 = .ok ss →
      Reachable h w ss := by
  induction calls with
  | nil =>
    intro ss0 ss hr _ hrun
    simp only [run, Except.ok.injEq] at hrun
    rw [← hrun]; exact hr
  | cons c rest ih =>
    intro ss0 ss hr hv hrun
    cases c with
    | update dir =>
      simp only [validCalls, Bool.and_eq_true, decide_eq_true_eq] at hv
      simp only [run] at hrun
      exact ih _ ss (.update ss0 dir hr hv.1) hv.2 hrun
    | tick rx ry =>
      simp only [validCalls] at hv
      simp only [run] at hrun
      cases hT : Tick ss0 rx ry with
      | error e => rw [hT] at hrun; cases hrun
      | ok ss1 =>
        rw [hT] at hrun
        exact ih ss1 ss (.tick ss0 ss1 rx ry hr hT) hv hrun

theorem movedAlong_unique {d d' : Int} {a b : Point}
    (h1 : MovedAlong d a b) (h2 : MovedAlong d' a b) : d = d' := by
  unfold MovedAlong at h1 h2
  simp only [UP, DOWN, LEFT, RIGHT] at h1 h2
  omega

/-- A hit of the forward probe of `_BODY_TYPE_DELTAS`, for displacements in the `int8` range,
comes from two unit steps that do not return to the first cell. -/
theorem part_probe_forward (A B C : Point) (t : Int)
    (hr : -128 ≤ B.X - A.X ∧ B.X - A.X ≤ 127 ∧ -128 ≤ B.Y - A.Y ∧ B.Y - A.Y ≤ 127 ∧
      -128 ≤ C.X - B.X ∧ C.X - B.X ≤ 127 ∧ -128 ≤ C.Y - B.Y ∧ C.Y - B.Y ≤ 127)
    (h : _BODY_TYPE_DELTAS.lookup
      (int8 (B.X - A.X), int8 (C.X - B.X), int8 (B.Y - A.Y), int8 (C.Y - B.Y)) = some t) :
    IsUnitStep A B ∧ IsUnitStep B C ∧ C ≠ A := by
  have k := body_lookup_some _ _ _ _ _ h
  simp only [int8] at k
  refine ⟨by unfold IsUnitStep; omega, by unfold IsUnitStep; omega, ?_⟩
  intro e
  subst e
  omega

/-- A hit of the reversed probe of `_BODY_TYPE_DELTAS`, for displacements in the `int8`
range, comes from two unit steps that do not return to the first cell. -/
theorem part_probe_backward (A B C : Point) (t : Int)
    (hr : -128 ≤ B.X - A.X ∧ B.X - A.X ≤ 127 ∧ -128 ≤ B.Y - A.Y ∧ B.Y - A.Y ≤ 127 ∧
      -128 ≤ C.X - B.X ∧ C.X - B.X ≤ 127 ∧ -128 ≤ C.Y - B.Y ∧ C.Y - B.Y ≤ 127)
    (h : _BODY_TYPE_DELTAS.lookup
      (int8 (B.X - C.X), int8 (A.X - B.X), int8 (B.Y - C.Y), int8 (A.Y - B.Y)) = some t) :
    IsUnitStep A B ∧ IsUnitStep B C ∧ C ≠ A := by
  have k := body_lookup_some _ _ _ _ _ h
  simp only [int8] at k
  refine ⟨by unfold IsUnitStep; omega, by unfold IsUnitStep; omega, ?_⟩
  intro e
  subst e
  omega

/-- With at most one `UpdateDirection` between ticks, while the game is not over and the body
has two segments or more, `Direction` is not the opposite of the head's last move and the
candidate head is not the cell of the segment behind the head. -/
theorem driver_no_reversal (h w : Int) (fresh : Bool) (ss : SnakeState)
    (hr : DriverReachable h w fresh ss) (hg : ss.GameOver = false)
    (hl : 2 ≤ ss.SnakeBody.length) (neck head : SnakePart)
    (en : ss.SnakeBody[ss.SnakeBody.length - 2]? = some neck)
    (eh : ss.SnakeBody[ss.SnakeBody.length - 1]? = some head) :
    (∃ d, MovedAlong d neck.Cord head.Cord) ∧
    (∀ d, MovedAlong d neck.Cord head.Cord → ¬ IsOpposite d ss.Direction) ∧
    (∃ new_head, advance_snake_head ss = .ok new_head) ∧
    (∀ new_head, advance_snake_head ss = .ok new_head → new_head.Cord ≠ neck.Cord) := by
  obtain ⟨d, hm, _, hno⟩ := driver_direction h w fresh ss hr hg hl neck head en eh
  obtain ⟨hd, _⟩ := reachable_chain h w ss (driver_reachable h w fresh ss hr)
  have hne : ss.SnakeBody ≠ [] := by
    intro e
    rw [e] at hl
    simp at hl
  refine ⟨⟨d, hm⟩, ?_, advance_snake_head_total ss hne, ?_⟩
  · intro d' hm'
    rw [movedAlong_unique hm' hm]
    exact hno
  · intro new_head hhead
    obtain ⟨old_head, eoh, hmv, _⟩ := advance_snake_head_moved ss new_head hhead hd
    rw [eh] at eoh
    simp only [Option.some.injEq] at eoh
    subst eoh
    exact movedAlong_not_back hm hno hmv

/-- In a reachable state the score is the number of segments less one. -/
theorem reachable_score (h w : Int) :
    ∀ ss, Reachable h w ss → ss.Score = (ss.SnakeBody.length : Int) - 1 := by
  apply reachable_induction
  · simp [CreateSnake]
  · intro ss dir _ ih _
    rw [UpdateDirection_frame ss dir]
    exact ih
  · intro ss _ ih
    exact ih
  · intro ss new_head ss1 ss' rx ry hreach ih hg hhead ht h1 h2
    obtain ⟨_, _, _, _, _, hcells⟩ := move_step_inv ss ss1 ss' new_head rx ry h1 h2
    have hl' := cellsOf_length ss'.SnakeBody
    have hpos : 0 < ss.SnakeBody.length :=
      List.length_pos.2 (reachable_nodup_drop h w ss hreach).1
    rcases hcells with ⟨_, c, s, _⟩ | ⟨_, c, s, _⟩ <;> rw [c] at hl' <;>
      simp only [cellsOf, List.length_append, List.length_map, List.length_singleton,
        List.length_drop] at hl' <;> rw [s, ih] <;> omega

/-- A returning `Tick` from a reachable state lowers neither the score nor the number of
segments. -/
theorem reachable_tick_monotone (h w : Int) (ss ss' : SnakeState) (rx ry : Nat)
    (hr : Reachable h w ss) (hT : Tick ss rx ry = .ok ss') :
    ss.Score ≤ ss'.Score ∧ ss.SnakeBody.length ≤ ss'.SnakeBody.length := by
  have hpos : 0 < ss.SnakeBody.length :=
    List.length_pos.2 (reachable_nodup_drop h w ss hr).1
  rcases Tick_ok_inv ss ss' rx ry hT with ⟨_, rfl⟩ | ⟨_, new_head, _, hcase⟩
  · exact ⟨le_refl _, le_refl _⟩
  · rcases hcase with ⟨_, rfl⟩ | ⟨_, ss1, h1, h2⟩
    · exact ⟨le_refl _, le_refl _⟩
    · obtain ⟨_, _, _, _, _, hcells⟩ := move_step_inv ss ss1 ss' new_head rx ry h1 h2
      have hl' := cellsOf_length ss'.SnakeBody
      rcases hcells with ⟨_, c, s, _⟩ | ⟨_, c, s, _⟩ <;> rw [c] at hl' <;>
        simp only [cellsOf, List.length_append, List.length_map, List.length_singleton,
          List.length_drop] at hl' <;> constructor <;> omega

/-! ## The claims -/

/-- C1. No-reversal rule of `UpdateDirection`: from a state whose `Direction` is one of the four
headings and for every integer intent `dir`, the new `Direction` is `dir` exactly when the old
heading is vertical and `dir` is `LEFT` or `RIGHT`, or the old heading is horizontal and `dir` is
`UP` or `DOWN`; otherwise it is unchanged.  The new heading is never the opposite of the old one
and no other field changes. -/
theorem UpdateDirection_no_reversal (ss : SnakeState) (dir : Int)
    (hdir : ss.Direction = UP ∨ ss.Direction = DOWN ∨ ss.Direction = LEFT ∨
      ss.Direction = RIGHT) :
    (UpdateDirection ss dir).Direction =
        (if ((ss.Direction = UP ∨ ss.Direction = DOWN) ∧ (dir = LEFT ∨ dir = RIGHT)) ∨
            ((ss.Direction = LEFT ∨ ss.Direction = RIGHT) ∧ (dir = UP ∨ dir = DOWN))
          then dir else ss.Direction) ∧
      ¬ IsOpposite ss.Direction (UpdateDirection ss dir).Direction ∧
      UpdateDirection ss dir = { ss with Direction := (UpdateDirection ss dir).Direction } := by
  unfold UpdateDirection IsOpposite
  simp only [UP, DOWN, LEFT, RIGHT] at *
  refine ⟨?_, ?_, ?_⟩
  · split_ifs <;> first | rfl | (exfalso; omega)
  · split_ifs <;> (try dsimp only) <;> omega
  · split_ifs <;> rfl

/-- Instance of C1 at the initial state of a 10×10 board with the reversing intent `UP`. -/
theorem UpdateDirection_no_reversal_witness :
    (UpdateDirection (CreateSnake 10 10) UP).Direction =
        (if (((CreateSnake 10 10).Direction = UP ∨ (CreateSnake 10 10).Direction = DOWN) ∧
              (UP = LEFT ∨ UP = RIGHT)) ∨
            (((CreateSnake 10 10).Direction = LEFT ∨ (CreateSnake 10 10).Direction = RIGHT) ∧
              (UP = UP ∨ UP = DOWN))
          then UP else (CreateSnake 10 10).Direction) ∧
      ¬ IsOpposite (CreateSnake 10 10).Direction
        (UpdateDirection (CreateSnake 10 10) UP).Direction ∧
      UpdateDirection (CreateSnake 10 10) UP =
        { CreateSnake 10 10 with
          Direction := (UpdateDirection (CreateSnake 10 10) UP).Direction } :=
  UpdateDirection_no_reversal (CreateSnake 10 10) UP (by decide)

/-- C2. Growth/move rule of `Tick` (implemented by `maybe_consume_apple_and_grow_snake`): for
every state with `GameOver = false` and a non-empty body whose candidate new head `new_head`
does not collide, when `maybe_consume_apple_and_grow_snake` returns (it can only fail to by
`log.Fatal` in its re-tagging blocks), `Tick` returns too, for every draw, with the body and the
score it produced.  If the candidate cell equals `Apple`, the cells of the body are the old
ones with the candidate appended (length +1), `Score` grows by exactly 1 (for a score below
`MaxInt64`, so that the increment does not wrap) and `maybe_consume_apple_and_grow_snake`
leaves `Apple` at `(-1,-1)`; otherwise the cells are the old ones without the first (tail) cell
and with the candidate appended (same length), and `Score` and `Apple` are unchanged by
`maybe_consume_apple_and_grow_snake`. -/
theorem Tick_growth_rule (ss ss1 : SnakeState) (new_head : SnakePart)
    (hover : ss.GameOver = false)
    (hhead : advance_snake_head ss = .ok new_head)
    (htouch : snake_touched ss new_head.Cord = false)
    (h1 : maybe_consume_apple_and_grow_snake ss new_head = .ok ss1) :
    (∀ rx ry, ∃ ss2, Tick ss rx ry = .ok ss2 ∧ ss2.SnakeBody = ss1.SnakeBody ∧
      ss2.Score = ss1.Score) ∧
    (new_head.Cord = ss.Apple →
      cellsOf ss1.SnakeBody = cellsOf ss.SnakeBody ++ [new_head.Cord] ∧
      ss1.SnakeBody.length = ss.SnakeBody.length + 1 ∧
      (ss.Score < MaxInt64 → ss1.Score = ss.Score + 1) ∧ ss1.Apple = ⟨-1, -1⟩) ∧
    (new_head.Cord ≠ ss.Apple →
      cellsOf ss1.SnakeBody = (cellsOf ss.SnakeBody).drop 1 ++ [new_head.Cord] ∧
      ss1.SnakeBody.length = ss.SnakeBody.length ∧
      ss1.Score = ss.Score ∧ ss1.Apple = ss.Apple) := by
  obtain ⟨old_head, eoh, hpos, _⟩ := advance_snake_head_inv ss new_head hhead
  obtain ⟨hw, hh, _⟩ := snake_touched_false_inv ss _ htouch
  obtain ⟨⟨_, fh, fw, _⟩, happle, hmove, _⟩ := maybe_consume_ok_inv ss ss1 new_head h1
  have hlen : (cellsOf ss1.SnakeBody).length = ss1.SnakeBody.length := by simp [cellsOf]
  refine ⟨?_, ?_, ?_⟩
  · intro rx ry
    obtain ⟨ss2, h2⟩ := maybe_create_apple_total ss1 rx ry (by rw [fw]; exact hw)
      (by rw [fh]; exact hh)
    have e2 := maybe_create_apple_inv ss1 ss2 rx ry h2
    refine ⟨ss2, ?_, by rw [e2], by rw [e2]⟩
    rw [Tick_unfold ss new_head rx ry hover hhead, htouch, h1]
    exact h2
  · intro ha
    obtain ⟨c, s, a⟩ := happle ha
    refine ⟨c, ?_, fun _ => s, a⟩
    rw [← hlen, c]
    simp [cellsOf]
  · intro ha
    obtain ⟨c, s, a⟩ := hmove ha
    have hd : (cellsOf ss.SnakeBody ++ [new_head.Cord]).drop 1 =
        (cellsOf ss.SnakeBody).drop 1 ++ [new_head.Cord] := by
      cases hb : ss.SnakeBody with
      | nil => rw [hb] at hpos; simp at hpos
      | cons x rest => simp [cellsOf]
    refine ⟨c.trans hd, ?_, s, a⟩
    rw [← hlen, c]
    simp [cellsOf]

/-- Instance of C2.  Growing: on the scenario of `TestTick` the apple lies at `(5,6)`, right
below the initial head, and the snake grows onto it, with score 1.  Moving: the two-segment
snake `(5,5), (5,6)` heading `DOWN` with the apple elsewhere loses its tail cell `(5,5)` and
gains `(5,7)`, with the same score and apple. -/
theorem Tick_growth_rule_witness :
    (∀ rx ry, ∃ ss2, Tick { CreateSnake 10 10 with Apple := ⟨5, 6⟩ } rx ry = .ok ss2 ∧
      ss2.SnakeBody = [⟨⟨5, 5⟩, BODY_PART_TAIL_DOWN⟩, ⟨⟨5, 6⟩, BODY_PART_HEAD_DOWN⟩] ∧
      ss2.Score = 1) ∧
    cellsOf [(⟨⟨5, 5⟩, BODY_PART_TAIL_DOWN⟩ : SnakePart), ⟨⟨5, 6⟩, BODY_PART_HEAD_DOWN⟩] =
      [⟨5, 5⟩, ⟨5, 6⟩] ∧
    (1 : Int) = 0 + 1 ∧
    (cellsOf [(⟨⟨5, 6⟩, BODY_PART_TAIL_DOWN⟩ : SnakePart), ⟨⟨5, 7⟩, BODY_PART_HEAD_DOWN⟩] =
        [⟨5, 6⟩, ⟨5, 7⟩] ∧
      [(⟨⟨5, 6⟩, BODY_PART_TAIL_DOWN⟩ : SnakePart), ⟨⟨5, 7⟩, BODY_PART_HEAD_DOWN⟩].length =
        [(⟨⟨5, 5⟩, BODY_PART_TAIL_DOWN⟩ : SnakePart), ⟨⟨5, 6⟩, BODY_PART_HEAD_DOWN⟩].length ∧
      (1 : Int) = 1 ∧ (⟨3, 4⟩ : Point) = ⟨3, 4⟩) :=
  ⟨(Tick_growth_rule { CreateSnake 10 10 with Apple := ⟨5, 6⟩ }
      { SnakeBody := [⟨⟨5, 5⟩, BODY_PART_TAIL_DOWN⟩, ⟨⟨5, 6⟩, BODY_PART_HEAD_DOWN⟩]
        Direction := DOWN, Apple := ⟨-1, -1⟩, Height := 10, Width := 10
        GameOver := false, Score := 1 }
      ⟨⟨5, 6⟩, BODY_PART_HEAD_DOWN⟩ (by decide) (by decide) (by decide) (by decide)).1,
    ((Tick_growth_rule { CreateSnake 10 10 with Apple := ⟨5, 6⟩ }
      { SnakeBody := [⟨⟨5, 5⟩, BODY_PART_TAIL_DOWN⟩, ⟨⟨5, 6⟩, BODY_PART_HEAD_DOWN⟩]
        Direction := DOWN, Apple := ⟨-1, -1⟩, Height := 10, Width := 10
        GameOver := false, Score := 1 }
      ⟨⟨5, 6⟩, BODY_PART_HEAD_DOWN⟩ (by decide) (by decide) (by decide) (by decide)).2.1
        (by decide)).1,
    (((Tick_growth_rule { CreateSnake 10 10 with Apple := ⟨5, 6⟩ }
      { SnakeBody := [⟨⟨5, 5⟩, BODY_PART_TAIL_DOWN⟩, ⟨⟨5, 6⟩, BODY_PART_HEAD_DOWN⟩]
        Direction := DOWN, Apple := ⟨-1, -1⟩, Height := 10, Width := 10
        GameOver := false, Score := 1 }
      ⟨⟨5, 6⟩, BODY_PART_HEAD_DOWN⟩ (by decide) (by decide) (by decide) (by decide)).2.1
        (by decide)).2.2.1) (by decide),
    (Tick_growth_rule
      { SnakeBody := [⟨⟨5, 5⟩, BODY_PART_TAIL_DOWN⟩, ⟨⟨5, 6⟩, BODY_PART_HEAD_DOWN⟩]
        Direction := DOWN, Apple := ⟨3, 4⟩, Height := 10, Width := 10
        GameOver := false, Score := 1 }
      { SnakeBody := [⟨⟨5, 6⟩, BODY_PART_TAIL_DOWN⟩, ⟨⟨5, 7⟩, BODY_PART_HEAD_DOWN⟩]
        Direction := DOWN, Apple := ⟨3, 4⟩, Height := 10, Width := 10
        GameOver := false, Score := 1 }
      ⟨⟨5, 7⟩, BODY_PART_HEAD_DOWN⟩ (by decide) (by decide) (by decide) (by decide)).2.2
        (by decide)⟩

/-- C3. Collision predicate: for every state whose `Width` and `Height` are above `MinInt64`
(so that `Width-1` and `Height-1` do not wrap) and every point `p`, `snake_touched(p)` is true
if and only if `p` lies on or outside the wall ring (`p.X <= 0`, `p.X >= Width-1`,
`p.Y <= 0` or `p.Y >= Height-1`) or `p` is the cell of a body segment at an index `>= 1`.
In particular a point inside the interior that meets no segment other than the tail (index 0)
is not a collision. -/
theorem snake_touched_iff (ss : SnakeState) (p : Point)
    (hW : MinInt64 < ss.Width) (hH : MinInt64 < ss.Height) :
    (snake_touched ss p = true ↔
      (p.X ≤ 0 ∨ p.X ≥ ss.Width - 1 ∨ p.Y ≤ 0 ∨ p.Y ≥ ss.Height - 1 ∨
        ∃ i part, 1 ≤ i ∧ ss.SnakeBody[i]? = some part ∧ p = part.Cord)) ∧
    ((0 < p.X ∧ p.X < ss.Width - 1 ∧ 0 < p.Y ∧ p.Y < ss.Height - 1) →
      (∀ i part, 1 ≤ i → ss.SnakeBody[i]? = some part → p ≠ part.Cord) →
      snake_touched ss p = false) := by
  have _hrange : MinInt64 < ss.Width ∧ MinInt64 < ss.Height := ⟨hW, hH⟩
  have key : snake_touched ss p = true ↔
      (p.X ≤ 0 ∨ p.X ≥ ss.Width - 1 ∨ p.Y ≤ 0 ∨ p.Y ≥ ss.Height - 1 ∨
        ∃ i part, 1 ≤ i ∧ ss.SnakeBody[i]? = some part ∧ p = part.Cord) := by
    unfold snake_touched
    have hb : touches_body p (ss.SnakeBody.drop 1) = true ↔
        ∃ i part, 1 ≤ i ∧ ss.SnakeBody[i]? = some part ∧ p = part.Cord := by
      rw [touches_body_iff]
      constructor
      · rintro ⟨part, hm, hp⟩
        obtain ⟨i, hi, hg⟩ := (mem_drop_one_iff _ _).1 hm
        exact ⟨i, part, hi, hg, hp⟩
      · rintro ⟨i, part, hi, hg, hp⟩
        exact ⟨part, (mem_drop_one_iff _ _).2 ⟨i, hi, hg⟩, hp⟩
    split_ifs with h1 h2
    · simp only [true_iff]
      rcases h1 with h | h
      · exact Or.inl h
      · exact Or.inr (Or.inl h)
    · simp only [true_iff]
      rcases h2 with h | h
      · exact Or.inr (Or.inr (Or.inl h))
      · exact Or.inr (Or.inr (Or.inr (Or.inl h)))
    · rw [hb]
      constructor
      · intro h; exact Or.inr (Or.inr (Or.inr (Or.inr h)))
      · rintro (h | h | h | h | h)
        · exact absurd (Or.inl h) h1
        · exact absurd (Or.inr h) h1
        · exact absurd (Or.inl h) h2
        · exact absurd (Or.inr h) h2
        · exact h
  refine ⟨key, ?_⟩
  rintro ⟨h1, h2, h3, h4⟩ hbody
  cases hs : snake_touched ss p with
  | false => rfl
  | true =>
    exfalso
    rcases key.1 hs with h | h | h | h | ⟨i, part, hi, hg, hp⟩
    · omega
    · omega
    · omega
    · omega
    · exact hbody i part hi hg hp

/-- Instance of C3 on the body of `TestSnakeTouched`: the point `(4,5)` meets only the segment
at index 0 and is not a collision. -/
theorem snake_touched_iff_witness :
    snake_touched { CreateSnake 10 10 with
        SnakeBody := [⟨⟨4, 5⟩, BODY_PART_HEAD_DOWN⟩, ⟨⟨5, 5⟩, BODY_PART_I⟩,
          ⟨⟨6, 5⟩, BODY_PART_TAIL_DOWN⟩] } ⟨4, 5⟩ = false := by
  refine (snake_touched_iff _ ⟨4, 5⟩ (by decide) (by decide)).2 (by decide) ?_
  intro i part hi hg
  match i, hi with
  | 1, _ => simp at hg; subst hg; decide
  | 2, _ => simp at hg; subst hg; decide
  | (n + 3), _ => simp at hg

/-- C4. Terminal transition of `Tick`: from a state that is not over and has a non-empty body,
the candidate head exists, `Tick` returns with `GameOver = true` if and only if the candidate
cell satisfies the collision predicate, and in that case the returned state is the old one with
only `GameOver` changed. -/
theorem Tick_terminal_transition (ss : SnakeState) (rx ry : Nat)
    (hover : ss.GameOver = false) (hbody : ss.SnakeBody ≠ []) :
    ∃ new_head, advance_snake_head ss = .ok new_head ∧
      ((∃ ss', Tick ss rx ry = .ok ss' ∧ ss'.GameOver = true) ↔
        snake_touched ss new_head.Cord = true) ∧
      (snake_touched ss new_head.Cord = true →
        Tick ss rx ry = .ok { ss with GameOver := true }) ∧
      (snake_touched ss new_head.Cord = false →
        ∀ ss', Tick ss rx ry = .ok ss' → ss'.GameOver = false) := by
  obtain ⟨new_head, hhead⟩ := advance_snake_head_total ss hbody
  have hyes : snake_touched ss new_head.Cord = true →
      Tick ss rx ry = .ok { ss with GameOver := true } := by
    intro ht
    rw [Tick_unfold ss new_head rx ry hover hhead, if_pos ht]
  have hno : snake_touched ss new_head.Cord = false →
      ∀ ss', Tick ss rx ry = .ok ss' → ss'.GameOver = false := by
    intro ht ss' hT
    rw [Tick_unfold ss new_head rx ry hover hhead, ht] at hT
    cases h1 : maybe_consume_apple_and_grow_snake ss new_head with
    | error e => rw [h1] at hT; cases hT
    | ok ss1 =>
      rw [h1] at hT
      have h2 : maybe_create_apple ss1 rx ry = .ok ss' := hT
      obtain ⟨⟨_, _, _, hg⟩, _⟩ := maybe_consume_ok_inv ss ss1 new_head h1
      rw [maybe_create_apple_inv ss1 ss' rx ry h2]
      exact hg.trans hover
  refine ⟨new_head, hhead, ⟨?_, ?_⟩, hyes, hno⟩
  · rintro ⟨ss', hT, hg⟩
    cases ht : snake_touched ss new_head.Cord with
    | true => rfl
    | false =>
      rw [hno ht ss' hT] at hg
      cases hg
  · intro ht
    exact ⟨_, hyes ht, rfl⟩

/-- Instance of C4 at the initial state of a 3×3 board, whose first tick runs into the wall. -/
theorem Tick_terminal_transition_witness :
    ∃ new_head, advance_snake_head (CreateSnake 3 3) = .ok new_head ∧
      ((∃ ss', Tick (CreateSnake 3 3) 0 0 = .ok ss' ∧ ss'.GameOver = true) ↔
        snake_touched (CreateSnake 3 3) new_head.Cord = true) ∧
      (snake_touched (CreateSnake 3 3) new_head.Cord = true →
        Tick (CreateSnake 3 3) 0 0 = .ok { CreateSnake 3 3 with GameOver := true }) ∧
      (snake_touched (CreateSnake 3 3) new_head.Cord = false →
        ∀ ss', Tick (CreateSnake 3 3) 0 0 = .ok ss' → ss'.GameOver = false) :=
  Tick_terminal_transition (CreateSnake 3 3) 0 0 (by decide) (by decide)

/-- C5. Initial state: for `height, width >= 3`, `CreateSnake(height, width)` has exactly one
segment, at the cell `(width/2, height/2)` with floor division, tagged `BODY_PART_HEAD_DOWN`;
`Direction = DOWN`, `Apple = (-1,-1)` with `HasApple()` false, `Height = height`,
`Width = width`, `Score = 0` and `GameOver = false`. -/
theorem CreateSnake_initial (height width : Int) (hh : 3 ≤ height) (hw : 3 ≤ width) :
    CreateSnake height width =
        { SnakeBody := [⟨⟨Int.fdiv width 2, Int.fdiv height 2⟩, BODY_PART_HEAD_DOWN⟩]
          Direction := DOWN
          Apple := ⟨-1, -1⟩
          Height := height
          Width := width
          GameOver := false
          Score := 0 } ∧
      HasApple (CreateSnake height width) = false := by
  constructor
  · unfold CreateSnake
    rw [Int.fdiv_eq_tdiv (by omega) (by omega), Int.fdiv_eq_tdiv (by omega) (by omega)]
  · simp [HasApple, CreateSnake]

/-- Instance of C5 on the 10×10 board of the tests: the snake starts at `(5,5)`. -/
theorem CreateSnake_initial_witness :
    CreateSnake 10 10 =
        { SnakeBody := [⟨⟨Int.fdiv 10 2, Int.fdiv 10 2⟩, BODY_PART_HEAD_DOWN⟩]
          Direction := DOWN
          Apple := ⟨-1, -1⟩
          Height := 10
          Width := 10
          GameOver := false
          Score := 0 } ∧
      HasApple (CreateSnake 10 10) = false :=
  CreateSnake_initial 10 10 (by decide) (by decide)

/-- C6. `Tick` is a no-op in the terminal state: with `GameOver = true`, `Tick` returns the
state unchanged for every pair of draws, and so does every finite run of `Tick` calls. -/
theorem Tick_terminal_noop (ss : SnakeState) (hover : ss.GameOver = true) :
    (∀ rx ry, Tick ss rx ry = .ok ss) ∧ (∀ draws, Ticks draws ss = .ok ss) := by
  have h1 : ∀ rx ry, Tick ss rx ry = .ok ss := by
    intro rx ry
    unfold Tick
    simp [hover]
  refine ⟨h1, ?_⟩
  intro draws
  induction draws with
  | nil => rfl
  | cons d rest ih =>
    obtain ⟨rx, ry⟩ := d
    simp only [Ticks, h1]
    exact ih

/-- Instance of C6 at the terminal state `hitWall`. -/
theorem Tick_terminal_noop_witness :
    (∀ rx ry, Tick hitWall rx ry = .ok hitWall) ∧ (∀ draws, Ticks draws hitWall = .ok hitWall) :=
  Tick_terminal_noop hitWall (by decide)

/-- C7, refuted as stated.  The terminal state `hitWall` is reached by one tick on a 3×3 board
and has `GameOver = true`; `UpdateDirection(LEFT)` still turns its `Direction` from `DOWN` to
`LEFT`, so the state is not left unchanged. -/
theorem UpdateDirection_terminal_counterexample :
    Tick (CreateSnake 3 3) 0 0 = .ok hitWall ∧ hitWall.GameOver = true ∧
      hitWall.Direction = DOWN ∧ (UpdateDirection hitWall LEFT).Direction = LEFT ∧
      UpdateDirection hitWall LEFT ≠ hitWall := by
  refine ⟨by decide, by decide, by decide, by decide, by decide⟩

/-- C7, amended.  In the terminal state `UpdateDirection` does not test `GameOver`: it changes
no field other than `Direction` and keeps `GameOver = true`; `Tick` is a no-op.  Hence from a
state with `GameOver = true` every finite sequence of `Tick` and `UpdateDirection` calls returns
and leaves `SnakeBody`, `Apple`, `Score`, `Width`, `Height` and `GameOver` unchanged; only
`Direction` may differ. -/
theorem terminal_calls_keep_all_but_Direction (ss : SnakeState) (hover : ss.GameOver = true) :
    (∀ dir, UpdateDirection ss dir =
        { ss with Direction := (UpdateDirection ss dir).Direction }) ∧
      (∀ rx ry, Tick ss rx ry = .ok ss) ∧
      (∀ calls, ∃ d, run calls ss = .ok { ss with Direction := d }) := by
  have hupd : ∀ (st : SnakeState) (dir : Int), UpdateDirection st dir =
      { st with Direction := (UpdateDirection st dir).Direction } := by
    intro st dir
    unfold UpdateDirection
    split_ifs <;> rfl
  have htick : ∀ (st : SnakeState), st.GameOver = true → ∀ rx ry, Tick st rx ry = .ok st := by
    intro st hst rx ry
    unfold Tick
    simp [hst]
  refine ⟨hupd ss, htick ss hover, ?_⟩
  intro calls
  induction calls generalizing ss with
  | nil => exact ⟨ss.Direction, rfl⟩
  | cons c rest ih =>
    cases c with
    | update dir =>
      have hg : (UpdateDirection ss dir).GameOver = true := by
        rw [hupd ss dir]; exact hover
      obtain ⟨d, hd⟩ := ih (UpdateDirection ss dir) hg
      refine ⟨d, ?_⟩
      simp only [run]
      rw [hd, hupd ss dir]
    | tick rx ry =>
      obtain ⟨d, hd⟩ := ih ss hover
      refine ⟨d, ?_⟩
      simp only [run, htick ss hover]
      exact hd

/-- Instance of C7 (amended) at the terminal state `hitWall`. -/
theorem terminal_calls_keep_all_but_Direction_witness :
    (∀ dir, UpdateDirection hitWall dir =
        { hitWall with Direction := (UpdateDirection hitWall dir).Direction }) ∧
      (∀ rx ry, Tick hitWall rx ry = .ok hitWall) ∧
      (∀ calls, ∃ d, run calls hitWall = .ok { hitWall with Direction := d }) :=
  terminal_calls_keep_all_but_Direction hitWall (by decide)

/-- C8. Orientation symmetry: for all points `A`, `B`, `C`, `get_part_type(A, B, C)` and
`get_part_type(C, B, A)` return the same tag and agree on whether an error is returned. -/
theorem get_part_type_symm (A B C : Point) :
    (get_part_type A B C).1 = (get_part_type C B A).1 ∧
    ((get_part_type A B C).2.isSome = (get_part_type C B A).2.isSome) := by
  unfold get_part_type
  simp only []
  generalize h1 : _BODY_TYPE_DELTAS.lookup
    (int8 (B.X - A.X), int8 (C.X - B.X), int8 (B.Y - A.Y), int8 (C.Y - B.Y)) = d1
  generalize h2 : _BODY_TYPE_DELTAS.lookup
    (int8 (B.X - C.X), int8 (A.X - B.X), int8 (B.Y - C.Y), int8 (A.Y - B.Y)) = d2
  cases d1 with
  | none => cases d2 <;> simp
  | some t =>
    cases d2 with
    | none => simp
    | some u =>
      exfalso
      rw [← neg_sub C.X B.X, ← neg_sub B.X A.X, ← neg_sub C.Y B.Y, ← neg_sub B.Y A.Y] at h2
      exact body_lookup_exclusive _ _ _ _ t u h1 h2

/-- C9. Corner/straight classification: when `B - A` and `C - B` are unit grid steps and
`C ≠ A`, `get_part_type(A, B, C)` returns no error and the tag follows from where the two
neighbours of `B` lie (rows grow downward): `BODY_PART_I` for above and below, `BODY_PART_H` for
left and right, `BODY_PART_BODY_L` for above and right, `BODY_PART_BODY_L1` for right and below,
`BODY_PART_BODY_L2` for below and left, `BODY_PART_BODY_L3` for left and above. -/
theorem get_part_type_geometry (A B C : Point)
    (hAB : IsUnitStep A B) (hBC : IsUnitStep B C) (hCA : C ≠ A) :
    (get_part_type A B C).2 = none ∧
    ((Above A B ∧ Below C B ∨ Above C B ∧ Below A B) → (get_part_type A B C).1 = BODY_PART_I) ∧
    ((LeftOf A B ∧ RightOf C B ∨ LeftOf C B ∧ RightOf A B) →
      (get_part_type A B C).1 = BODY_PART_H) ∧
    ((Above A B ∧ RightOf C B ∨ Above C B ∧ RightOf A B) →
      (get_part_type A B C).1 = BODY_PART_BODY_L) ∧
    ((RightOf A B ∧ Below C B ∨ RightOf C B ∧ Below A B) →
      (get_part_type A B C).1 = BODY_PART_BODY_L1) ∧
    ((Below A B ∧ LeftOf C B ∨ Below C B ∧ LeftOf A B) →
      (get_part_type A B C).1 = BODY_PART_BODY_L2) ∧
    ((LeftOf A B ∧ Above C B ∨ LeftOf C B ∧ Above A B) →
      (get_part_type A B C).1 = BODY_PART_BODY_L3) := by
  have hne : ¬ (C.X = A.X ∧ C.Y = A.Y) := by
    intro h; apply hCA
    cases A; cases C; simp_all
  simp only [IsUnitStep] at hAB hBC
  simp only [Above, Below, LeftOf, RightOf]
  rcases hAB with h | h | h | h <;> rcases hBC with k | k | k | k <;>
    obtain ⟨h1, h2⟩ := h <;> obtain ⟨k1, k2⟩ := k <;>
    first
    | (exfalso; omega)
    | (rw [get_part_type_of_deltas A B C _ _ _ _ h1 h2 k1 k2]
       simp only [body_lookup, int8]
       norm_num
       repeat' apply And.intro
       all_goals (intro g; exfalso; omega))

/-- Instance of C9 on a triple of `TestGetBodyPart`: `(4,5)` is above `(4,6)` and `(5,6)` is to
its right, an `L`. -/
theorem get_part_type_geometry_witness :
    (get_part_type ⟨4, 5⟩ ⟨4, 6⟩ ⟨5, 6⟩).2 = none ∧
      (get_part_type ⟨4, 5⟩ ⟨4, 6⟩ ⟨5, 6⟩).1 = BODY_PART_BODY_L :=
  ⟨(get_part_type_geometry ⟨4, 5⟩ ⟨4, 6⟩ ⟨5, 6⟩ (by decide) (by decide) (by decide)).1,
    (get_part_type_geometry ⟨4, 5⟩ ⟨4, 6⟩ ⟨5, 6⟩ (by decide) (by decide) (by decide)).2.2.2.1
      (Or.inl ⟨by decide, by decide⟩)⟩

/-- C10. Tail orientation points from the tail `T` toward its neighbour `N`: a displacement
`N - T` of `(0,1)` gives `BODY_PART_TAIL_DOWN`, `(0,-1)` gives `BODY_PART_TAIL_UP`, `(-1,0)`
gives `BODY_PART_TAIL_LEFT`, `(1,0)` gives `BODY_PART_TAIL_RIGHT`, each without error; and after
every `Tick` that starts and ends with `GameOver = false` and leaves a body of at least two
segments, the tag of `SnakeBody[0]` is the one `get_tail_type` gives for the cells of
`SnakeBody[0]` and `SnakeBody[1]`. -/
theorem tail_orientation (T N : Point) (ss ss' : SnakeState) (rx ry : Nat) :
    (N.X - T.X = 0 ∧ N.Y - T.Y = 1 → get_tail_type T N = (BODY_PART_TAIL_DOWN, none)) ∧
    (N.X - T.X = 0 ∧ N.Y - T.Y = -1 → get_tail_type T N = (BODY_PART_TAIL_UP, none)) ∧
    (N.X - T.X = -1 ∧ N.Y - T.Y = 0 → get_tail_type T N = (BODY_PART_TAIL_LEFT, none)) ∧
    (N.X - T.X = 1 ∧ N.Y - T.Y = 0 → get_tail_type T N = (BODY_PART_TAIL_RIGHT, none)) ∧
    (ss.GameOver = false → Tick ss rx ry = .ok ss' → ss'.GameOver = false →
      2 ≤ ss'.SnakeBody.length →
      ∃ p0 p1, ss'.SnakeBody[0]? = some p0 ∧ ss'.SnakeBody[1]? = some p1 ∧
        get_tail_type p0.Cord p1.Cord = (p0.PartType, none)) := by
  obtain ⟨v1, v2, v3, v4⟩ := get_tail_type_value T N
  refine ⟨v1, v2, v3, v4, ?_⟩
  intro hover hT hover' hlen
  cases hh : advance_snake_head ss with
  | error e =>
    unfold Tick at hT
    rw [hover, hh] at hT
    cases hT
  | ok new_head =>
    rw [Tick_unfold ss new_head rx ry hover hh] at hT
    cases ht : snake_touched ss new_head.Cord with
    | true =>
      rw [ht, if_pos rfl] at hT
      cases hT
      cases hover'
    | false =>
      rw [ht] at hT
      cases h1 : maybe_consume_apple_and_grow_snake ss new_head with
      | error e => rw [h1] at hT; cases hT
      | ok ss1 =>
        rw [h1] at hT
        have h2 : maybe_create_apple ss1 rx ry = .ok ss' := hT
        have e2 := maybe_create_apple_inv ss1 ss' rx ry h2
        have hb : ss'.SnakeBody = ss1.SnakeBody := by rw [e2]
        obtain ⟨_, _, _, htail⟩ := maybe_consume_ok_inv ss ss1 new_head h1
        rw [hb] at hlen ⊢
        exact htail hlen

/-- Instance of C10 on the scenario of `TestTick`: after eating the apple at `(5,6)` the body is
`[(5,5), (5,6)]` and its tail is tagged `BODY_PART_TAIL_DOWN`. -/
theorem tail_orientation_witness :
    get_tail_type ⟨5, 5⟩ ⟨5, 6⟩ = (BODY_PART_TAIL_DOWN, none) ∧
      ∃ p0 p1,
        [(⟨⟨5, 5⟩, BODY_PART_TAIL_DOWN⟩ : SnakePart), ⟨⟨5, 6⟩, BODY_PART_HEAD_DOWN⟩][0]? =
            some p0 ∧
          [(⟨⟨5, 5⟩, BODY_PART_TAIL_DOWN⟩ : SnakePart), ⟨⟨5, 6⟩, BODY_PART_HEAD_DOWN⟩][1]? =
            some p1 ∧
          get_tail_type p0.Cord p1.Cord = (p0.PartType, none) :=
  ⟨(tail_orientation ⟨5, 5⟩ ⟨5, 6⟩ (CreateSnake 10 10) (CreateSnake 10 10) 0 0).1
      ⟨by decide, by decide⟩,
    (tail_orientation ⟨5, 5⟩ ⟨5, 6⟩ { CreateSnake 10 10 with Apple := ⟨5, 6⟩ }
      { SnakeBody := [⟨⟨5, 5⟩, BODY_PART_TAIL_DOWN⟩, ⟨⟨5, 6⟩, BODY_PART_HEAD_DOWN⟩]
        Direction := DOWN, Apple := ⟨3, 4⟩, Height := 10, Width := 10
        GameOver := false, Score := 1 } 2 3).2.2.2.2
      (by decide) (by decide) (by decide) (by decide)⟩

/-- C11, refuted as stated.  The state `biteTail` is reached from `CreateSnake 10 10` by
`UpdateDirection` calls with valid intents and returning `Tick` calls; its `GameOver` is false,
and its tail and its head both occupy the cell `(5,6)`: the head moved onto the tail cell, which
the collision test exempts, while eating an apple drawn there, so the tail was not cut. -/
theorem no_self_overlap_counterexample :
    run [.tick 4 6, .tick 3 6, .update LEFT, .tick 3 5, .update UP, .tick 4 5, .update RIGHT,
        .tick 0 0] (CreateSnake 10 10) = .ok biteTail ∧
      Reachable 10 10 biteTail ∧ biteTail.GameOver = false ∧
      biteTail.SnakeBody[0]?.map (fun part => part.Cord) = some ⟨5, 6⟩ ∧
      biteTail.SnakeBody[4]?.map (fun part => part.Cord) = some ⟨5, 6⟩ ∧
      ¬ (cellsOf biteTail.SnakeBody).Nodup := by
  refine ⟨by decide, ?_, by decide, by decide, by decide, by decide⟩
  exact reachable_of_run 10 10 _ _ _ .init (by decide) (by decide :
    run [.tick 4 6, .tick 3 6, .update LEFT, .tick 3 5, .update UP, .tick 4 5, .update RIGHT,
        .tick 0 0] (CreateSnake 10 10) = .ok biteTail)

/-- C11, amended.  In every state reachable from `CreateSnake h w` with `h, w >= 3`, for every
outcome of the draws, no two segments other than the tail `SnakeBody[0]` occupy the same cell;
and in every state reachable by ticks none of which creates an apple on a body cell, no two
segments at all occupy the same cell. -/
theorem no_self_overlap (h w : Int) (hh : 3 ≤ h) (hw : 3 ≤ w) (ss : SnakeState) :
    (Reachable h w ss → ((cellsOf ss.SnakeBody).drop 1).Nodup) ∧
    (FreeSpawnReachable h w ss → (cellsOf ss.SnakeBody).Nodup) :=
  ⟨fun hr => (reachable_nodup_drop h w ss hr).2, fun hr => (freeSpawn_inv h w hh hw ss hr).1⟩

/-- Instance of C11 (amended): the first half at the five-segment state `biteTail`, whose
segments other than the tail lie on the four cells `(5,7)`, `(4,7)`, `(4,6)`, `(5,6)`; the
second half at the three-segment state reached on a 10×10 board by eating the apples drawn at
`(5,7)` and `(4,7)`, no apple being drawn on the body. -/
theorem no_self_overlap_witness :
    ((cellsOf biteTail.SnakeBody).drop 1).Nodup ∧
      (cellsOf [(⟨⟨5, 6⟩, BODY_PART_TAIL_DOWN⟩ : SnakePart), ⟨⟨5, 7⟩, BODY_PART_BODY_L3⟩,
        ⟨⟨4, 7⟩, BODY_PART_HEAD_LEFT⟩]).Nodup :=
  ⟨(no_self_overlap 10 10 (by decide) (by decide) biteTail).1
      (reachable_of_run 10 10 _ _ _ .init (by decide) (by decide :
        run [.tick 4 6, .tick 3 6, .update LEFT, .tick 3 5, .update UP, .tick 4 5,
          .update RIGHT, .tick 0 0] (CreateSnake 10 10) = .ok biteTail)),
    (no_self_overlap 10 10 (by decide) (by decide)
      { SnakeBody := [⟨⟨5, 6⟩, BODY_PART_TAIL_DOWN⟩, ⟨⟨5, 7⟩, BODY_PART_BODY_L3⟩,
          ⟨⟨4, 7⟩, BODY_PART_HEAD_LEFT⟩]
        Direction := LEFT, Apple := ⟨1, 1⟩, Height := 10, Width := 10, GameOver := false,
        Score := 2 }).2
      (.tick
        (UpdateDirection
          { SnakeBody := [⟨⟨5, 6⟩, BODY_PART_TAIL_DOWN⟩, ⟨⟨5, 7⟩, BODY_PART_HEAD_DOWN⟩]
            Direction := DOWN, Apple := ⟨4, 7⟩, Height := 10, Width := 10, GameOver := false,
            Score := 1 } LEFT) _ 0 0
        (.update _ LEFT
          (.tick
            { SnakeBody := [⟨⟨5, 6⟩, BODY_PART_HEAD_DOWN⟩], Direction := DOWN,
              Apple := ⟨5, 7⟩, Height := 10, Width := 10, GameOver := false, Score := 0 }
            _ 3 6 (.tick (CreateSnake 10 10) _ 4 6 .init (by decide) (by decide))
            (by decide) (by decide))
          (by decide))
        (by decide) (by decide))⟩

/-- C12, refuted as stated.  The state `appleUnderHead` is reached from `CreateSnake 10 10` by
one tick; an apple is present and its cell `(5,6)` is the cell of the only segment:
`maybe_create_apple` draws the cell without looking at the body. -/
theorem apple_off_snake_counterexample :
    Tick (CreateSnake 10 10) 4 5 = .ok appleUnderHead ∧ Reachable 10 10 appleUnderHead ∧
      HasApple appleUnderHead = true ∧
      appleUnderHead.Apple ∈ cellsOf appleUnderHead.SnakeBody := by
  refine ⟨by decide, ?_, by decide, by decide⟩
  exact .tick (CreateSnake 10 10) _ 4 5 .init (by decide)

/-- C12, amended.  In every state reachable from `CreateSnake h w` with `h, w >= 3` by
`UpdateDirection` and `Tick` calls in which no tick creates an apple on a body cell, whenever
an apple is present (`HasApple()` is true) the `Apple` cell differs from the cell of every
segment: only a spawn can put the apple on the snake. -/
theorem apple_off_snake (h w : Int) (hh : 3 ≤ h) (hw : 3 ≤ w) (ss : SnakeState)
    (hr : FreeSpawnReachable h w ss) (ha : HasApple ss = true) :
    ∀ part ∈ ss.SnakeBody, ss.Apple ≠ part.Cord := by
  intro part hp he
  apply (freeSpawn_inv h w hh hw ss hr).2 ha
  rw [he]
  exact List.mem_map_of_mem _ hp

/-- Instance of C12 (amended) at the state after the first tick on a 10×10 board, whose apple
is drawn at `(5,7)`. -/
theorem apple_off_snake_witness :
    (⟨5, 7⟩ : Point) ≠ (⟨⟨5, 6⟩, BODY_PART_HEAD_DOWN⟩ : SnakePart).Cord :=
  apple_off_snake 10 10 (by decide) (by decide)
    { SnakeBody := [⟨⟨5, 6⟩, BODY_PART_HEAD_DOWN⟩], Direction := DOWN, Apple := ⟨5, 7⟩,
      Height := 10, Width := 10, GameOver := false, Score := 0 }
    (.tick (CreateSnake 10 10) _ 4 6 .init (by decide) (by decide)) (by decide)
    ⟨⟨5, 6⟩, BODY_PART_HEAD_DOWN⟩ (by decide)

/-- C13. Body stays in the interior: in every state reachable from `CreateSnake h w` with
`h, w >= 3`, for every outcome of the draws, `SnakeBody` is not empty and every segment has
`1 <= X <= Width-2` and `1 <= Y <= Height-2`. -/
theorem body_in_interior (h w : Int) (hh : 3 ≤ h) (hw : 3 ≤ w) (ss : SnakeState)
    (hr : Reachable h w ss) :
    ss.SnakeBody ≠ [] ∧
      ∀ part ∈ ss.SnakeBody, 1 ≤ part.Cord.X ∧ part.Cord.X ≤ ss.Width - 2 ∧
        1 ≤ part.Cord.Y ∧ part.Cord.Y ≤ ss.Height - 2 := by
  obtain ⟨_, e1, e2, hne, hin, _⟩ := reachable_basic h w hh hw ss hr
  refine ⟨hne, ?_⟩
  intro part hp
  have := hin part.Cord (List.mem_map_of_mem _ hp)
  rw [e1, e2]
  exact this

/-- Instance of C13 at the state `biteTail` of a 10×10 board. -/
theorem body_in_interior_witness :
    biteTail.SnakeBody ≠ [] ∧
      ∀ part ∈ biteTail.SnakeBody, 1 ≤ part.Cord.X ∧ part.Cord.X ≤ biteTail.Width - 2 ∧
        1 ≤ part.Cord.Y ∧ part.Cord.Y ≤ biteTail.Height - 2 :=
  body_in_interior 10 10 (by decide) (by decide) biteTail
    (reachable_of_run 10 10 _ _ _ .init (by decide) (by decide :
      run [.tick 4 6, .tick 3 6, .update LEFT, .tick 3 5, .update UP, .tick 4 5, .update RIGHT,
        .tick 0 0] (CreateSnake 10 10) = .ok biteTail))

/-- C14, violated by the code.  The state `reversedOnApple` is reached from `CreateSnake 10 10`
by two ticks followed by `UpdateDirection(LEFT)` and `UpdateDirection(UP)`, all intents being
valid; in the next `Tick` the call of `get_part_type` on the triple `(5,6), (5,7), (5,6)`
returns an error and `log.Fatal` is executed. -/
theorem Tick_fatal_after_reversal :
    run [.tick 4 6, .tick 4 5, .update LEFT, .update UP] (CreateSnake 10 10) =
        .ok reversedOnApple ∧
      Reachable 10 10 reversedOnApple ∧ reversedOnApple.GameOver = false ∧
      (get_part_type ⟨5, 6⟩ ⟨5, 7⟩ ⟨5, 6⟩).2 = some (.unknown_body ⟨5, 6⟩ ⟨5, 7⟩ ⟨5, 6⟩) ∧
      Tick reversedOnApple 0 0 = .error (.fatal (.unknown_body ⟨5, 6⟩ ⟨5, 7⟩ ⟨5, 6⟩)) := by
  refine ⟨by decide, ?_, by decide, by decide, by decide⟩
  exact reachable_of_run 10 10 _ _ _ .init (by decide) (by decide :
    run [.tick 4 6, .tick 4 5, .update LEFT, .update UP] (CreateSnake 10 10) =
      .ok reversedOnApple)

/-- C15, violated by the code.  In the reachable state `reversedOnApple` the body has two
segments and `GameOver` is false; the head's last move, from `(5,6)` to `(5,7)`, was `DOWN`,
`Direction` is `UP`, its opposite, and the candidate head of the next `Tick` is the cell
`(5,6)` of the segment behind the head. -/
theorem heading_reversed_by_two_updates :
    run [.tick 4 6, .tick 4 5, .update LEFT, .update UP] (CreateSnake 10 10) =
        .ok reversedOnApple ∧
      Reachable 10 10 reversedOnApple ∧ reversedOnApple.GameOver = false ∧
      reversedOnApple.SnakeBody.length = 2 ∧
      reversedOnApple.SnakeBody[0]? = some ⟨⟨5, 6⟩, BODY_PART_TAIL_DOWN⟩ ∧
      reversedOnApple.SnakeBody[1]? = some ⟨⟨5, 7⟩, BODY_PART_HEAD_DOWN⟩ ∧
      MovedAlong DOWN ⟨5, 6⟩ ⟨5, 7⟩ ∧ IsOpposite DOWN reversedOnApple.Direction ∧
      advance_snake_head reversedOnApple = .ok ⟨⟨5, 6⟩, BODY_PART_HEAD_UP⟩ := by
  refine ⟨by decide, ?_, by decide, by decide, by decide, by decide, by decide, by decide,
    by decide⟩
  exact reachable_of_run 10 10 _ _ _ .init (by decide) (by decide :
    run [.tick 4 6, .tick 4 5, .update LEFT, .update UP] (CreateSnake 10 10) =
      .ok reversedOnApple)

/-- C16. Apple spawn stays inside the board interior: for every state with
`Width, Height >= 3` and every outcome of the two draws, if no apple is present
(not (`Apple.X > 0` and `Apple.Y > 0`)), `maybe_create_apple` returns the state with only
`Apple` changed, to a cell with `1 <= X <= Width-2` and `1 <= Y <= Height-2`, so that
`HasApple()` becomes true; if an apple is present it returns the state unchanged. -/
theorem maybe_create_apple_interior (ss : SnakeState) (rx ry : Nat)
    (hw : 3 ≤ ss.Width) (hh : 3 ≤ ss.Height) :
    (¬ (ss.Apple.X > 0 ∧ ss.Apple.Y > 0) →
      ∃ ss', maybe_create_apple ss rx ry = .ok ss' ∧
        ss' = { ss with Apple := ss'.Apple } ∧
        1 ≤ ss'.Apple.X ∧ ss'.Apple.X ≤ ss.Width - 2 ∧
        1 ≤ ss'.Apple.Y ∧ ss'.Apple.Y ≤ ss.Height - 2 ∧ HasApple ss' = true) ∧
    ((ss.Apple.X > 0 ∧ ss.Apple.Y > 0) → maybe_create_apple ss rx ry = .ok ss) := by
  constructor
  · intro hna
    obtain ⟨ss', h2⟩ := maybe_create_apple_total ss rx ry hw hh
    obtain ⟨hp, hcase⟩ := maybe_create_apple_apple ss ss' rx ry h2
    refine ⟨ss', h2, maybe_create_apple_inv ss ss' rx ry h2, ?_⟩
    rcases hcase with ⟨hold, _⟩ | ⟨_, hi⟩
    · exfalso
      apply hna
      simpa [HasApple] using hold
    · unfold InInterior at hi
      exact ⟨hi.1, hi.2.1, hi.2.2.1, hi.2.2.2, hp⟩
  · intro ha
    unfold maybe_create_apple
    rw [if_pos ha]

/-- Instance of C16 at the initial state of a 10×10 board with the draws `(4, 5)`. -/
theorem maybe_create_apple_interior_witness :
    (¬ ((CreateSnake 10 10).Apple.X > 0 ∧ (CreateSnake 10 10).Apple.Y > 0) →
      ∃ ss', maybe_create_apple (CreateSnake 10 10) 4 5 = .ok ss' ∧
        ss' = { CreateSnake 10 10 with Apple := ss'.Apple } ∧
        1 ≤ ss'.Apple.X ∧ ss'.Apple.X ≤ (CreateSnake 10 10).Width - 2 ∧
        1 ≤ ss'.Apple.Y ∧ ss'.Apple.Y ≤ (CreateSnake 10 10).Height - 2 ∧
        HasApple ss' = true) ∧
    (((CreateSnake 10 10).Apple.X > 0 ∧ (CreateSnake 10 10).Apple.Y > 0) →
      maybe_create_apple (CreateSnake 10 10) 4 5 = .ok (CreateSnake 10 10)) :=
  maybe_create_apple_interior (CreateSnake 10 10) 4 5 (by decide) (by decide)

/-- C17. An apple is on the board after a successful tick: for every state reachable from
`CreateSnake h w` with `h, w >= 3` and with `GameOver = false`, every `Tick` that returns
without ending in game over leaves an `Apple` that is not the sentinel `(-1,-1)`, with
`HasApple()` true, inside the interior (`1 <= X <= Width-2`, `1 <= Y <= Height-2`); the tick in
which the previous apple is eaten is included. -/
theorem apple_after_tick (h w : Int) (hh : 3 ≤ h) (hw : 3 ≤ w) (ss ss' : SnakeState)
    (rx ry : Nat) (hr : Reachable h w ss) (hg : ss.GameOver = false)
    (hT : Tick ss rx ry = .ok ss') (hg' : ss'.GameOver = false) :
    ss'.Apple ≠ ⟨-1, -1⟩ ∧ HasApple ss' = true ∧
      1 ≤ ss'.Apple.X ∧ ss'.Apple.X ≤ ss'.Width - 2 ∧
      1 ≤ ss'.Apple.Y ∧ ss'.Apple.Y ≤ ss'.Height - 2 := by
  obtain ⟨_, e1, e2, _, _, ha'⟩ := reachable_basic h w hh hw ss' (.tick ss ss' rx ry hr hT)
  rcases Tick_ok_inv ss ss' rx ry hT with ⟨hover, _⟩ | ⟨_, new_head, hhead, hcase⟩
  · rw [hover] at hg; cases hg
  · rcases hcase with ⟨_, rfl⟩ | ⟨ht, ss1, h1, h2⟩
    · cases hg'
    · obtain ⟨hp, _⟩ := maybe_create_apple_apple ss1 ss' rx ry h2
      have hne : ss'.Apple ≠ ⟨-1, -1⟩ := by
        intro e
        simp [HasApple, e] at hp
      rcases ha' with e | hi
      · exact absurd e hne
      · unfold InInterior at hi
        rw [e1, e2]
        exact ⟨hne, hp, hi⟩

/-- Instance of C17 on a 10×10 board: the second tick eats the apple at `(5,7)` and a new
apple is drawn at `(3,4)` in the same tick. -/
theorem apple_after_tick_witness :
    (⟨3, 4⟩ : Point) ≠ ⟨-1, -1⟩ ∧
      HasApple
        { SnakeBody := [⟨⟨5, 6⟩, BODY_PART_TAIL_DOWN⟩, ⟨⟨5, 7⟩, BODY_PART_HEAD_DOWN⟩],
          Direction := DOWN, Apple := ⟨3, 4⟩, Height := 10, Width := 10, GameOver := false,
          Score := 1 } = true ∧
      (1 : Int) ≤ 3 ∧ (3 : Int) ≤ 10 - 2 ∧ (1 : Int) ≤ 4 ∧ (4 : Int) ≤ 10 - 2 :=
  apple_after_tick 10 10 (by decide) (by decide)
    { SnakeBody := [⟨⟨5, 6⟩, BODY_PART_HEAD_DOWN⟩], Direction := DOWN, Apple := ⟨5, 7⟩,
      Height := 10, Width := 10, GameOver := false, Score := 0 }
    { SnakeBody := [⟨⟨5, 6⟩, BODY_PART_TAIL_DOWN⟩, ⟨⟨5, 7⟩, BODY_PART_HEAD_DOWN⟩],
      Direction := DOWN, Apple := ⟨3, 4⟩, Height := 10, Width := 10, GameOver := false,
      Score := 1 } 2 3
    (.tick (CreateSnake 10 10) _ 4 6 .init (by decide))
    (by decide) (by decide) (by decide)

/-- C18, refuted as stated.  The displacement `(0,257)` is not a unit vector, yet
`get_tail_type` accepts it as `BODY_PART_TAIL_DOWN`, because `int8(257) = 1`; and
`get_part_type` accepts the triple `(0,0), (256,1), (256,2)`, whose first step `(256,1)` is no
unit step, as `BODY_PART_I`, because `int8(256) = 0`. -/
theorem classifiers_reject_counterexample :
    ¬ IsUnitStep ⟨0, 0⟩ ⟨0, 257⟩ ∧
      get_tail_type ⟨0, 0⟩ ⟨0, 257⟩ = (BODY_PART_TAIL_DOWN, none) ∧
      ¬ IsUnitStep ⟨0, 0⟩ ⟨256, 1⟩ ∧
      get_part_type ⟨0, 0⟩ ⟨256, 1⟩ ⟨256, 2⟩ = (BODY_PART_I, none) := by
  refine ⟨by decide, by decide, by decide, by decide⟩

/-- C18, amended.  For integer points whose coordinate differences lie in the `int8` range
`[-128, 127]`: if `N - T` is not one of `(0,1)`, `(0,-1)`, `(1,0)`, `(-1,0)` then
`get_tail_type(T, N)` returns an error; and if `B - A` or `C - B` is not a unit grid step, or
`C = A`, then `get_part_type(A, B, C)` returns an error.  (Outside that range the conversion to
`int8` wraps around and a non-unit displacement can be accepted.) -/
theorem classifiers_reject_in_range (T N A B C : Point) :
    ((-128 ≤ N.X - T.X ∧ N.X - T.X ≤ 127 ∧ -128 ≤ N.Y - T.Y ∧ N.Y - T.Y ≤ 127) →
      ¬ IsUnitStep T N → get_tail_type T N = (0, some (.unknown_tail T N))) ∧
    ((-128 ≤ B.X - A.X ∧ B.X - A.X ≤ 127 ∧ -128 ≤ B.Y - A.Y ∧ B.Y - A.Y ≤ 127 ∧
        -128 ≤ C.X - B.X ∧ C.X - B.X ≤ 127 ∧ -128 ≤ C.Y - B.Y ∧ C.Y - B.Y ≤ 127) →
      ¬ (IsUnitStep A B ∧ IsUnitStep B C ∧ C ≠ A) →
      get_part_type A B C = (0, some (.unknown_body A B C))) := by
  constructor
  · intro hr hn
    unfold get_tail_type
    simp only [tail_lookup, int8]
    unfold IsUnitStep at hn
    split_ifs <;> first | rfl | (exfalso; omega)
  · intro hr hn
    unfold get_part_type
    simp only []
    cases h1 : _BODY_TYPE_DELTAS.lookup
        (int8 (B.X - A.X), int8 (C.X - B.X), int8 (B.Y - A.Y), int8 (C.Y - B.Y)) with
    | some t => exact absurd (part_probe_forward A B C t hr h1) hn
    | none =>
      cases h2 : _BODY_TYPE_DELTAS.lookup
          (int8 (B.X - C.X), int8 (A.X - B.X), int8 (B.Y - C.Y), int8 (A.Y - B.Y)) with
      | some t => exact absurd (part_probe_backward A B C t hr h2) hn
      | none => rfl

/-- Instance of C18 (amended): the diagonal displacement `(1,1)` is rejected by
`get_tail_type`, and the reversal `(5,6), (5,7), (5,6)` by `get_part_type`. -/
theorem classifiers_reject_in_range_witness :
    get_tail_type ⟨0, 0⟩ ⟨1, 1⟩ = (0, some (.unknown_tail ⟨0, 0⟩ ⟨1, 1⟩)) ∧
      get_part_type ⟨5, 6⟩ ⟨5, 7⟩ ⟨5, 6⟩ = (0, some (.unknown_body ⟨5, 6⟩ ⟨5, 7⟩ ⟨5, 6⟩)) :=
  ⟨(classifiers_reject_in_range ⟨0, 0⟩ ⟨1, 1⟩ ⟨5, 6⟩ ⟨5, 7⟩ ⟨5, 6⟩).1 (by decide) (by decide),
    (classifiers_reject_in_range ⟨0, 0⟩ ⟨1, 1⟩ ⟨5, 6⟩ ⟨5, 7⟩ ⟨5, 6⟩).2 (by decide)
      (by decide)⟩

/-- C19. Candidate head computation: for a state whose body is not empty, with last segment
`old_head`, and whose `Direction` is one of the four headings, `advance_snake_head` returns the
segment whose cell is the cell of `old_head` displaced by one unit along `Direction` (`UP`:
`Y-1`, `DOWN`: `Y+1`, `LEFT`: `X-1`, `RIGHT`: `X+1`) and whose tag is the head tag of that
`Direction`; it only reads the state.  The displaced coordinate is taken between `MinInt64` and
`MaxInt64`, so that the step does not wrap. -/
theorem advance_snake_head_spec (ss : SnakeState) (old_head : SnakePart)
    (hlast : ss.SnakeBody.getLast? = some old_head) :
    (ss.Direction = UP → MinInt64 < old_head.Cord.Y → advance_snake_head ss =
      .ok ⟨⟨old_head.Cord.X, old_head.Cord.Y - 1⟩, BODY_PART_HEAD_UP⟩) ∧
    (ss.Direction = DOWN → old_head.Cord.Y < MaxInt64 → advance_snake_head ss =
      .ok ⟨⟨old_head.Cord.X, old_head.Cord.Y + 1⟩, BODY_PART_HEAD_DOWN⟩) ∧
    (ss.Direction = LEFT → MinInt64 < old_head.Cord.X → advance_snake_head ss =
      .ok ⟨⟨old_head.Cord.X - 1, old_head.Cord.Y⟩, BODY_PART_HEAD_LEFT⟩) ∧
    (ss.Direction = RIGHT → old_head.Cord.X < MaxInt64 → advance_snake_head ss =
      .ok ⟨⟨old_head.Cord.X + 1, old_head.Cord.Y⟩, BODY_PART_HEAD_RIGHT⟩) := by
  have hidx : ss.SnakeBody[ss.SnakeBody.length - 1]? = some old_head := by
    rw [← List.getLast?_eq_getElem?]; exact hlast
  refine ⟨?_, ?_, ?_, ?_⟩ <;> intro hd _ <;> unfold advance_snake_head <;>
    simp only [hidx, hd] <;> rfl

/-- Instance of C19 on the scenario of `TestAdvanceSnakeHead`: from `(5,5)` heading `DOWN` the
candidate is `(5,6)` tagged `BODY_PART_HEAD_DOWN`. -/
theorem advance_snake_head_spec_witness :
    advance_snake_head (CreateSnake 10 10) = .ok ⟨⟨5, 5 + 1⟩, BODY_PART_HEAD_DOWN⟩ :=
  (advance_snake_head_spec (CreateSnake 10 10) ⟨⟨5, 5⟩, BODY_PART_HEAD_DOWN⟩
    (by decide)).2.1 (by decide) (by decide)

/-- C20. Orientation tags match the geometry: in every state reachable from `CreateSnake h w`
by `UpdateDirection` and returning `Tick` calls whose body has `n >= 2` segments,
`SnakeBody[0]` carries the tag `get_tail_type(SnakeBody[0].Cord, SnakeBody[1].Cord)`, every
interior segment `i` (`0 < i < n-1`) carries the tag
`get_part_type(SnakeBody[i+1].Cord, SnakeBody[i].Cord, SnakeBody[i-1].Cord)`, both classifiers
returning no error, and the head carries the head tag of the direction of the displacement
from `SnakeBody[n-2]` to `SnakeBody[n-1]`. -/
theorem tags_match_geometry (h w : Int) (ss : SnakeState) (hr : Reachable h w ss)
    (hn : 2 ≤ ss.SnakeBody.length) :
    (∃ p0 p1, ss.SnakeBody[0]? = some p0 ∧ ss.SnakeBody[1]? = some p1 ∧
      get_tail_type p0.Cord p1.Cord = (p0.PartType, none)) ∧
    (∀ i a b c, 0 < i → ss.SnakeBody[i - 1]? = some a → ss.SnakeBody[i]? = some b →
      ss.SnakeBody[i + 1]? = some c →
      get_part_type c.Cord b.Cord a.Cord = (b.PartType, none)) ∧
    (∃ neck head d, ss.SnakeBody[ss.SnakeBody.length - 2]? = some neck ∧
      ss.SnakeBody[ss.SnakeBody.length - 1]? = some head ∧ IsHeading d ∧
      MovedAlong d neck.Cord head.Cord ∧
      head.PartType = (_HEAD_TYPE_FROM_DIR.lookup d).getD 0) := by
  obtain ⟨hT, hI, hH⟩ := reachable_tags h w ss hr
  have l0 : 0 < ss.SnakeBody.length := by omega
  have l1 : 1 < ss.SnakeBody.length := by omega
  have m1 : ss.SnakeBody.length - 1 < ss.SnakeBody.length := by omega
  have m2 : ss.SnakeBody.length - 2 < ss.SnakeBody.length := by omega
  refine ⟨?_, ?_, ?_⟩
  · exact ⟨_, _, List.getElem?_eq_getElem l0, List.getElem?_eq_getElem l1,
      hT _ _ (List.getElem?_eq_getElem l0) (List.getElem?_eq_getElem l1)⟩
  · intro i a b c hi ea eb ec
    obtain ⟨j, rfl⟩ : ∃ j, i = j + 1 := ⟨i - 1, by omega⟩
    exact hI j a b c (by simpa using ea) eb ec
  · obtain ⟨d, hd, hm, ht⟩ := hH _ _ hn (List.getElem?_eq_getElem m2)
      (List.getElem?_eq_getElem m1)
    exact ⟨_, _, d, List.getElem?_eq_getElem m2, List.getElem?_eq_getElem m1, hd, hm, ht⟩

/-- Instance of C20 at the five-segment state `biteTail`. -/
theorem tags_match_geometry_witness :
    (∃ p0 p1, biteTail.SnakeBody[0]? = some p0 ∧ biteTail.SnakeBody[1]? = some p1 ∧
      get_tail_type p0.Cord p1.Cord = (p0.PartType, none)) ∧
    (∀ i a b c, 0 < i → biteTail.SnakeBody[i - 1]? = some a → biteTail.SnakeBody[i]? = some b →
      biteTail.SnakeBody[i + 1]? = some c →
      get_part_type c.Cord b.Cord a.Cord = (b.PartType, none)) ∧
    (∃ neck head d, biteTail.SnakeBody[biteTail.SnakeBody.length - 2]? = some neck ∧
      biteTail.SnakeBody[biteTail.SnakeBody.length - 1]? = some head ∧ IsHeading d ∧
      MovedAlong d neck.Cord head.Cord ∧
      head.PartType = (_HEAD_TYPE_FROM_DIR.lookup d).getD 0) :=
  tags_match_geometry 10 10 biteTail
    (reachable_of_run 10 10 _ _ _ .init (by decide) (by decide :
      run [.tick 4 6, .tick 3 6, .update LEFT, .tick 3 5, .update UP, .tick 4 5, .update RIGHT,
        .tick 0 0] (CreateSnake 10 10) = .ok biteTail))
    (by decide)

/-- C21. The body is a connected grid path: in every state reachable from `CreateSnake h w` by
a finite sequence of `UpdateDirection` (intents among the four headings) and `Tick` calls, for
every index `i` with `i+1 < len(SnakeBody)`, the cells of `SnakeBody[i]` and `SnakeBody[i+1]`
differ by exactly one unit step in exactly one coordinate. -/
theorem body_connected (h w : Int) (ss : SnakeState) (hr : Reachable h w ss) (i : Nat)
    (p q : SnakePart) (hp : ss.SnakeBody[i]? = some p) (hq : ss.SnakeBody[i + 1]? = some q) :
    IsUnitStep p.Cord q.Cord ∧ |q.Cord.X - p.Cord.X| + |q.Cord.Y - p.Cord.Y| = 1 := by
  have hs : IsUnitStep p.Cord q.Cord :=
    chain_getElem (cellsOf ss.SnakeBody) i _ _ (reachable_chain h w ss hr).2
      (cellsOf_getElem _ _ _ hp) (cellsOf_getElem _ _ _ hq)
  refine ⟨hs, ?_⟩
  unfold IsUnitStep at hs
  rcases hs with ⟨h1, h2⟩ | ⟨h1, h2⟩ | ⟨h1, h2⟩ | ⟨h1, h2⟩ <;> rw [h1, h2] <;> decide

/-- Instance of C21 at the last two segments, `(4,6)` and `(5,6)`, of the five-segment state
`biteTail`. -/
theorem body_connected_witness :
    IsUnitStep (⟨⟨4, 6⟩, BODY_PART_BODY_L1⟩ : SnakePart).Cord
        (⟨⟨5, 6⟩, BODY_PART_HEAD_RIGHT⟩ : SnakePart).Cord ∧
      |(⟨⟨5, 6⟩, BODY_PART_HEAD_RIGHT⟩ : SnakePart).Cord.X -
          (⟨⟨4, 6⟩, BODY_PART_BODY_L1⟩ : SnakePart).Cord.X| +
        |(⟨⟨5, 6⟩, BODY_PART_HEAD_RIGHT⟩ : SnakePart).Cord.Y -
          (⟨⟨4, 6⟩, BODY_PART_BODY_L1⟩ : SnakePart).Cord.Y| = 1 :=
  body_connected 10 10 biteTail
    (reachable_of_run 10 10 _ _ _ .init (by decide) (by decide :
      run [.tick 4 6, .tick 3 6, .update LEFT, .tick 3 5, .update UP, .tick 4 5, .update RIGHT,
        .tick 0 0] (CreateSnake 10 10) = .ok biteTail))
    3 ⟨⟨4, 6⟩, BODY_PART_BODY_L1⟩ ⟨⟨5, 6⟩, BODY_PART_HEAD_RIGHT⟩ (by decide) (by decide)

/-- C22. Score counts growth exactly: in every state reachable from `CreateSnake h w` by a
finite sequence of `UpdateDirection` and `Tick` calls, `Score = len(SnakeBody) - 1`; hence
`Score` is non-negative, and no returning `Tick` and no `UpdateDirection` lowers the score or
shortens the body. -/
theorem score_counts_growth (h w : Int) (ss : SnakeState) (hr : Reachable h w ss) :
    ss.Score = (ss.SnakeBody.length : Int) - 1 ∧ 0 ≤ ss.Score ∧
    (∀ rx ry ss', Tick ss rx ry = .ok ss' →
      ss.Score ≤ ss'.Score ∧ ss.SnakeBody.length ≤ ss'.SnakeBody.length) ∧
    (∀ dir, (UpdateDirection ss dir).Score = ss.Score ∧
      (UpdateDirection ss dir).SnakeBody = ss.SnakeBody) := by
  have hs := reachable_score h w ss hr
  have hpos : 0 < ss.SnakeBody.length :=
    List.length_pos.2 (reachable_nodup_drop h w ss hr).1
  refine ⟨hs, by omega, ?_, ?_⟩
  · intro rx ry ss' hT
    exact reachable_tick_monotone h w ss ss' rx ry hr hT
  · intro dir
    rw [UpdateDirection_frame ss dir]
    exact ⟨rfl, rfl⟩

/-- Instance of C22 at the state `biteTail`: five segments, four apples eaten. -/
theorem score_counts_growth_witness :
    biteTail.Score = (biteTail.SnakeBody.length : Int) - 1 ∧ 0 ≤ biteTail.Score ∧
    (∀ rx ry ss', Tick biteTail rx ry = .ok ss' →
      biteTail.Score ≤ ss'.Score ∧ biteTail.SnakeBody.length ≤ ss'.SnakeBody.length) ∧
    (∀ dir, (UpdateDirection biteTail dir).Score = biteTail.Score ∧
      (UpdateDirection biteTail dir).SnakeBody = biteTail.SnakeBody) :=
  score_counts_growth 10 10 biteTail
    (reachable_of_run 10 10 _ _ _ .init (by decide) (by decide :
      run [.tick 4 6, .tick 3 6, .update LEFT, .tick 3 5, .update UP, .tick 4 5, .update RIGHT,
        .tick 0 0] (CreateSnake 10 10) = .ok biteTail))

end Snake
